import Mathlib

/-!
# Verification of the RPC 3D truck-loading solvers

Shallow embedding of the ad-hoc solver family of the RPC repository
(`src/solver_ad-hoc/naive.py`, `src/solver_ad-hoc/random_start_local.py`,
with `naive_local.py` and `random_start.py` sharing the same code for the
functions embedded here).

Conventions of the embedding:
* Python ints for dimensions and coordinates are natural numbers (they come
  from parsed sizes and `range(...)` scans, which never go negative).
* Python floats (utilisation percentages, scores, support areas) are modelled
  as exact rationals `ℚ`; `float('inf')` is modelled by `⊤` in `WithTop ℚ`,
  and the values `inf`/`-inf`/`nan` that can arise from subtracting scores
  are modelled by the four-case type `PyVal`.
* The process-wide `random` module and `math.exp` are external library state;
  they are modelled by an explicit environment `PyEnv σ` threaded through the
  functions: `seed` models `random.seed`, `randBelow` models
  `random._randbelow` (used by `shuffle`, `choice`, `randint`), `randFloat`
  models `random.random()`, and `exp` models `math.exp`.
  `random.shuffle` is modelled by the Fisher–Yates loop CPython runs on top
  of `_randbelow`.
* In-place mutation of the truck list is modelled by rebuilding the list
  with `List.set` / `List.eraseIdx` at the index of the mutated truck
  (CPython's `list.remove` and `is` comparisons resolve to that index
  because `copy_solution` creates fresh objects).  List reads guarded by
  the source's emptiness checks use `getD` with an inert default; the
  `randBelow_lt` field records `_randbelow`'s contract that makes those
  defaults unreachable.
-/

namespace RPC

/-- An item, as `class Object` in the Python sources: mutable current dims
`length`/`width`/`height`, stable `id`, `delivery_order`, and the immutable
`original_dims` triple (absent in `naive.py`, present elsewhere). -/
structure Obj where
  id : Nat
  length : Nat
  width : Nat
  height : Nat
  deliveryOrder : Int
  originalDims : Nat × Nat × Nat
deriving Repr, DecidableEq

instance : Inhabited Obj := ⟨⟨0, 0, 0, 0, -1, (0, 0, 0)⟩⟩

/-- A placement is the tuple `(Object, x_0, y_0, z_0)` stored in
`Truck.placed_objects`. -/
abbrev Placement := Obj × Nat × Nat × Nat

instance : Inhabited Placement := ⟨(default, 0, 0, 0)⟩

/-- `class Truck`: fixed dims plus the ordered list of placements. -/
structure Truck where
  length : Nat
  width : Nat
  height : Nat
  placedObjects : List Placement
deriving Repr, DecidableEq

instance : Inhabited Truck := ⟨⟨0, 0, 0, []⟩⟩

/-- Truck dims as parsed from line 1 of the input. -/
abbrev Dims := Nat × Nat × Nat

/-- `Truck.get_used_volume`. -/
def get_used_volume (t : Truck) : Nat :=
  (t.placedObjects.map fun p => p.1.length * p.1.width * p.1.height).sum

/-- `Truck.get_capacity`. -/
def get_capacity (t : Truck) : Nat :=
  t.length * t.width * t.height

/-- `Truck.get_utilization`: percentage, `0` when the capacity is `0`. -/
def get_utilization (t : Truck) : ℚ :=
  if 0 < get_capacity t then
    ((get_used_volume t : ℚ) / (get_capacity t : ℚ)) * 100
  else 0

/-- `BaseSolver.get_object_volume`. -/
def get_object_volume (o : Obj) : Nat :=
  o.length * o.width * o.height

/-- The canonical list of the 6 permutations of a dimension triple, in the
order every `orientations = [...]` literal of the sources enumerates them. -/
def sixPerms (d : Nat × Nat × Nat) : List (Nat × Nat × Nat) :=
  [(d.1, d.2.1, d.2.2), (d.1, d.2.2, d.2.1),
   (d.2.1, d.1, d.2.2), (d.2.1, d.2.2, d.1),
   (d.2.2, d.1, d.2.1), (d.2.2, d.2.1, d.1)]

/-- `BaseSolver.calculate_min_trucks` (`random_start_local.py`, identical in
`random_start.py` and `naive_local.py`): volume lower bound, floored at 1. -/
def calculate_min_trucks (dims : Dims) (objects : List Obj) : Nat :=
  let truckVolume := dims.1 * dims.2.1 * dims.2.2
  let totalObjectsVolume := (objects.map get_object_volume).sum
  let minTrucks := (totalObjectsVolume + truckVolume - 1) / truckVolume
  max 1 minTrucks

/-- Does one orientation fit the truck envelope (the repeated
`length <= truck_length and width <= truck_width and height <= truck_height`
test). -/
def fitsEnvelope (d : Nat × Nat × Nat) (dims : Dims) : Bool :=
  decide (d.1 ≤ dims.1) && decide (d.2.1 ≤ dims.2.1) && decide (d.2.2 ≤ dims.2.2)

/-- `BaseSolver.satisfiability_check`: every object fits the envelope in at
least one of its 6 orientations (taken from `original_dims`). -/
def satisfiability_check (dims : Dims) (objects : List Obj) : Bool :=
  objects.all fun obj => (sixPerms obj.originalDims).any fun d => fitsEnvelope d dims

/-- One axis of the overlap test:
`not (x + obj_len <= px or px + placed_len <= x)` (half-open intervals). -/
def axisOverlap (x l px pl : Nat) : Bool :=
  !(decide (x + l ≤ px) || decide (px + pl ≤ x))

/-- The body of `check_collision`'s loop: candidate box at `(x,y,z)` with dims
`(l,w,h)` against one placed object. -/
def collidePair (x y z l w h : Nat) (q : Placement) : Bool :=
  axisOverlap x l q.2.1 q.1.length &&
  axisOverlap y w q.2.2.1 q.1.width &&
  axisOverlap z h q.2.2.2 q.1.height

/-- `BaseSolver.check_collision` (`random_start_local.py`): any placed object
(other than the optional excluded one, compared by `id`) collides. -/
def check_collision (x y z l w h : Nat) (t : Truck) (excludeObj : Option Obj) : Bool :=
  t.placedObjects.any fun q =>
    (match excludeObj with
     | some e => !(q.1.id == e.id)
     | none => true) && collidePair x y z l w h q

/-- The list of values Python's `range(bound - obj + 1)` runs over: empty when
the object does not fit along the axis (the Python expression is then `≤ 0`). -/
def scanRange (bound obj : Nat) : List Nat :=
  if obj ≤ bound then List.range (bound - obj + 1) else []

/-- The candidate positions `find_best_position` scans, in its loop order:
ascending `z`, then `x`, then `y`. -/
def candidatePositions (tl tw th l w h : Nat) : List (Nat × Nat × Nat) :=
  (scanRange th h).flatMap fun z =>
    (scanRange tl l).flatMap fun x =>
      (scanRange tw w).map fun y => (x, y, z)

/-- `BaseSolver.find_best_position` (`random_start_local.py`): first scanned
position with no collision.  NOTE: unlike `naive.py`, this version performs no
gravity-support check. -/
def find_best_position (l w h : Nat) (t : Truck) (excludeObj : Option Obj) :
    Option (Nat × Nat × Nat) :=
  (candidatePositions t.length t.width t.height l w h).find? fun p =>
    !check_collision p.1 p.2.1 p.2.2 l w h t excludeObj

/-- The object as mutated by `obj.length, obj.width, obj.height = l, w, h`. -/
def setDims (o : Obj) (d : Nat × Nat × Nat) : Obj :=
  { o with length := d.1, width := d.2.1, height := d.2.2 }

/-- The `truck.placed_objects.append((obj, x, y, z))` step after the dims
mutation. -/
def appendPlacement (t : Truck) (o : Obj) (d : Nat × Nat × Nat)
    (p : Nat × Nat × Nat) : Truck :=
  { t with placedObjects := t.placedObjects ++ [(setDims o d, p.1, p.2.1, p.2.2)] }

/-- The orientation loop of `BaseSolver.place_object_in_truck`. -/
def tryOrientations (o : Obj) (t : Truck) : List (Nat × Nat × Nat) → Option Truck
  | [] => none
  | d :: rest =>
    if fitsEnvelope d (t.length, t.width, t.height) then
      match find_best_position d.1 d.2.1 d.2.2 t none with
      | some p => some (appendPlacement t o d p)
      | none => tryOrientations o t rest
    else tryOrientations o t rest

/-- `BaseSolver.place_object_in_truck` (`random_start_local.py`): try the 6
orientations of `original_dims` in canonical order; on the first that fits the
envelope and admits a position, mutate the object's dims and append.  `none`
models the `False` return (no mutation happened). -/
def place_object_in_truck (o : Obj) (t : Truck) : Option Truck :=
  tryOrientations o t (sixPerms o.originalDims)

/-- `for truck in trucks: if place_object_in_truck(obj, truck): ...` — the
first-fit scan over open trucks; returns the updated list. -/
def placeInTrucks (o : Obj) : List Truck → Option (List Truck)
  | [] => none
  | t :: rest =>
    match place_object_in_truck o t with
    | some t' => some (t' :: rest)
    | none => (placeInTrucks o rest).map (t :: ·)

/-- The placement loop shared by `solve_with_ordering` (and the greedy pass of
the other solvers): first-fit into open trucks, else open a new truck; return
`[]` (the UNSAT sentinel) if the object fails even in a fresh truck. -/
def greedyLoop (dims : Dims) : List Obj → List Truck → List Truck
  | [], trucks => trucks
  | o :: rest, trucks =>
    match placeInTrucks o trucks with
    | some trucks' => greedyLoop dims rest trucks'
    | none =>
      match place_object_in_truck o (Truck.mk dims.1 dims.2.1 dims.2.2 []) with
      | some t' => greedyLoop dims rest (trucks ++ [t'])
      | none => []

/-- `copy_objects`: fresh `Object`s rebuilt from `original_dims` (this resets
the current dims to the original ones). -/
def copy_objects (objects : List Obj) : List Obj :=
  objects.map fun o =>
    { id := o.id, length := o.originalDims.1, width := o.originalDims.2.1,
      height := o.originalDims.2.2, deliveryOrder := o.deliveryOrder,
      originalDims := o.originalDims }

/-- `RandomStartLocalSearchSolver.copy_solution`: deep copy, field by field. -/
def copy_solution (trucks : List Truck) : List Truck :=
  trucks.map fun t =>
    { length := t.length, width := t.width, height := t.height,
      placedObjects := t.placedObjects.map fun p =>
        ({ id := p.1.id, length := p.1.length, width := p.1.width,
           height := p.1.height, deliveryOrder := p.1.deliveryOrder,
           originalDims := p.1.originalDims }, p.2.1, p.2.2.1, p.2.2.2) }

/-- `RandomStartLocalSearchSolver.calculate_score`: `+∞` (here `⊤`) for the
empty solution, else `trucks*1000 + (100 - average utilisation)`. -/
def calculate_score (trucks : List Truck) : WithTop ℚ :=
  if trucks.isEmpty then ⊤
  else
    let numTrucks := trucks.length
    let avgUtilization := (trucks.map get_utilization).sum / (numTrucks : ℚ)
    some ((numTrucks : ℚ) * 1000 + (100 - avgUtilization))

/-! ## The random / math environment

Python's `random` module is process-wide deterministic state; `math.exp` is a
pure library function on floats.  Both are external to the repository, so the
embedding abstracts them as an environment that the solver threads through. -/

/-- Abstract model of the CPython `random` module plus `math.exp`.
`randBelow_lt` is `_randbelow`'s contract (`0 <= result < n` for `n > 0`). -/
structure PyEnv (σ : Type) where
  seed : Int → σ
  randFloat : σ → ℚ × σ
  randBelow : σ → Nat → Nat × σ
  exp : ℚ → ℚ
  randBelow_lt : ∀ s n, 0 < n → (randBelow s n).1 < n

/-- Swap two positions of a list (no-op when an index is out of range, which
`_randbelow`'s contract rules out). -/
def listSwap {α : Type} (xs : List α) (i j : Nat) : List α :=
  match xs[i]?, xs[j]? with
  | some a, some b => (xs.set i b).set j a
  | _, _ => xs

/-- The Fisher–Yates loop of CPython's `random.shuffle`:
`for i in reversed(range(1, len(x))): j = _randbelow(i+1); swap x[i] x[j]`.
The argument counts the current value of `i`. -/
def shuffleFrom {σ α : Type} (env : PyEnv σ) : Nat → List α → σ → List α × σ
  | 0, xs, s => (xs, s)
  | i + 1, xs, s =>
    let js := env.randBelow s (i + 2)
    shuffleFrom env i (listSwap xs (i + 1) js.1) js.2

/-- `random.shuffle`. -/
def pyShuffle {σ α : Type} (env : PyEnv σ) (xs : List α) (s : σ) : List α × σ :=
  shuffleFrom env (xs.length - 1) xs s

/-- Sort key comparison for `sort(key=get_object_volume, reverse=True)`:
stable descending order (Python's `list.sort` is stable). -/
def volumeDesc (a b : Obj) : Bool :=
  decide (get_object_volume b ≤ get_object_volume a)

/-- Sort key comparison for `sort(key=get_object_volume)`. -/
def volumeAsc (a b : Obj) : Bool :=
  decide (get_object_volume a ≤ get_object_volume b)

/-- Stable insertion: a later element goes after every already-placed element
that may precede it (`le y x`). -/
def insertStable {α : Type} (le : α → α → Bool) (x : α) : List α → List α
  | [] => [x]
  | y :: ys => if le y x then y :: insertStable le x ys else x :: y :: ys

/-- Model of Python's stable `list.sort(key=...)`: for a total preorder the
stable sorted order is unique, so any stable sorting algorithm computes it;
this structurally recursive insertion sort keeps the embedding executable. -/
def stableSort {α : Type} (le : α → α → Bool) (xs : List α) : List α :=
  xs.foldl (fun acc x => insertStable le x acc) []

/-- `BaseSolver.solve_with_ordering` (`random_start_local.py`): copy the
objects, seed (when a seed is given) before any random operation, order, then
run the greedy first-fit placement loop. -/
def solve_with_ordering {σ : Type} (env : PyEnv σ) (s : σ) (dims : Dims)
    (objects : List Obj) (ordering : String) (seed : Option Int) :
    List Truck × σ :=
  let objectsCopy := copy_objects objects
  let s := match seed with
           | some n => env.seed n
           | none => s
  if ordering = "volume_desc" then
    (greedyLoop dims (stableSort volumeDesc objectsCopy) [], s)
  else if ordering = "volume_asc" then
    (greedyLoop dims (stableSort volumeAsc objectsCopy) [], s)
  else if ordering = "random" ∨ ordering = "shuffle" then
    let sh := pyShuffle env objectsCopy s
    (greedyLoop dims sh.1 [], sh.2)
  else
    (greedyLoop dims objectsCopy [], s)

/-! ## Local-search operators (`RandomStartLocalSearchSolver`) -/

/-- Indices of the non-empty trucks
(`[t for t in new_trucks if t.placed_objects]`, tracked by index so that the
in-place mutations of the chosen truck can be written back). -/
def nonEmptyIdx (trucks : List Truck) : List Nat :=
  (List.range trucks.length).filter fun i => !(trucks.getD i default).placedObjects.isEmpty

/-- Remove the placement at an index (`placed_objects.pop(idx)`), keeping the
truck dims. -/
def popPlacement (t : Truck) (i : Nat) : Truck :=
  { t with placedObjects := t.placedObjects.eraseIdx i }

/-- The `for other_truck in new_trucks` loop of `shift_operation`: first truck
other than the source (skipped by identity) that accepts the object. -/
def shiftTryOthers (o : Obj) (nt : List Truck) (ti : Nat) : List Nat → Option (List Truck)
  | [] => none
  | k :: rest =>
    if k = ti then shiftTryOthers o nt ti rest
    else
      match place_object_in_truck o (nt.getD k default) with
      | some t' => some (nt.set k t')
      | none => shiftTryOthers o nt ti rest

/-- `RandomStartLocalSearchSolver.shift_operation`. -/
def shift_operation {σ : Type} (env : PyEnv σ) (trucks : List Truck) (s : σ) :
    Option (List Truck) × σ :=
  if trucks.isEmpty then (none, s)
  else
    let newTrucks := copy_solution trucks
    let ne := nonEmptyIdx newTrucks
    if ne.isEmpty then (none, s)
    else
      let jd := env.randBelow s ne.length
      let ti := ne.getD jd.1 0
      let truck := newTrucks.getD ti default
      if truck.placedObjects.isEmpty then (none, jd.2)
      else
        let od := env.randBelow jd.2 truck.placedObjects.length
        let p := truck.placedObjects.getD od.1 default
        let truckPopped := popPlacement truck od.1
        let nt1 := newTrucks.set ti truckPopped
        match find_best_position p.1.length p.1.width p.1.height truckPopped none with
        | some pos =>
          let truck' := { truckPopped with
            placedObjects := truckPopped.placedObjects ++ [(p.1, pos.1, pos.2.1, pos.2.2)] }
          (some (newTrucks.set ti truck'), od.2)
        | none =>
          match shiftTryOthers p.1 nt1 ti (List.range nt1.length) with
          | some nt2 =>
            (some (if truckPopped.placedObjects.isEmpty then nt2.eraseIdx ti else nt2), od.2)
          | none => (none, od.2)

/-- `RandomStartLocalSearchSolver.swap_operation`. -/
def swap_operation {σ : Type} (env : PyEnv σ) (trucks : List Truck) (s : σ) :
    Option (List Truck) × σ :=
  if trucks.length < 2 then (none, s)
  else
    let newTrucks := copy_solution trucks
    let ne := nonEmptyIdx newTrucks
    if ne.length < 2 then (none, s)
    else
      let j1 := env.randBelow s ne.length
      let i1 := ne.getD j1.1 0
      let truck1 := newTrucks.getD i1 default
      let remaining := ne.eraseIdx j1.1
      let j2 := env.randBelow j1.2 remaining.length
      let i2 := remaining.getD j2.1 0
      let truck2 := newTrucks.getD i2 default
      let o1 := env.randBelow j2.2 truck1.placedObjects.length
      let o2 := env.randBelow o1.2 truck2.placedObjects.length
      let obj1 := (truck1.placedObjects.getD o1.1 default).1
      let obj2 := (truck2.placedObjects.getD o2.1 default).1
      let t1p := popPlacement truck1 o1.1
      let t2p := popPlacement truck2 o2.1
      match place_object_in_truck obj2 t1p with
      | none => (none, o2.2)
      | some t1f =>
        match place_object_in_truck obj1 t2p with
        | none => (none, o2.2)
        | some t2f => (some ((newTrucks.set i1 t1f).set i2 t2f), o2.2)

/-- The orientation loop at the end of `rotate_operation` (its candidates are
already shuffled; the first orientation admitting a position wins). -/
def tryRotOrientations (o : Obj) (t : Truck) : List (Nat × Nat × Nat) → Option Truck
  | [] => none
  | d :: rest =>
    match find_best_position d.1 d.2.1 d.2.2 t none with
    | some p => some (appendPlacement t o d p)
    | none => tryRotOrientations o t rest

/-- `RandomStartLocalSearchSolver.rotate_operation`. -/
def rotate_operation {σ : Type} (env : PyEnv σ) (trucks : List Truck) (s : σ) :
    Option (List Truck) × σ :=
  if trucks.isEmpty then (none, s)
  else
    let newTrucks := copy_solution trucks
    let ne := nonEmptyIdx newTrucks
    if ne.isEmpty then (none, s)
    else
      let jd := env.randBelow s ne.length
      let ti := ne.getD jd.1 0
      let truck := newTrucks.getD ti default
      if truck.placedObjects.isEmpty then (none, jd.2)
      else
        let od := env.randBelow jd.2 truck.placedObjects.length
        let p := truck.placedObjects.getD od.1 default
        let truckPopped := popPlacement truck od.1
        let oris := (sixPerms p.1.originalDims).filter
          (fun d => !(d == (p.1.length, p.1.width, p.1.height)))
        if oris.isEmpty then (none, od.2)
        else
          let sh := pyShuffle env oris od.2
          match tryRotOrientations p.1 truckPopped sh.1 with
          | some truck' => (some (newTrucks.set ti truck'), sh.2)
          | none => (none, sh.2)

/-- Index of the first truck with minimal utilisation
(`min(new_trucks, key=lambda t: t.get_utilization())` keeps the first
minimum; `list.remove` then erases exactly that index). -/
def argminUtilIdx (trucks : List Truck) : Nat :=
  (trucks.enum.foldl
    (fun acc p => if get_utilization p.2 < acc.2 then (p.1, get_utilization p.2) else acc)
    (0, match trucks with | [] => 0 | t :: _ => get_utilization t)).1

/-- The redistribution loop of `compact_operation`: place every object of the
removed truck into the remaining trucks, first fit; fail the whole operation if
any object does not fit. -/
def compactPlaceAll : List Obj → List Truck → Option (List Truck)
  | [], ts => some ts
  | o :: os, ts =>
    match placeInTrucks o ts with
    | some ts' => compactPlaceAll os ts'
    | none => none

/-- `RandomStartLocalSearchSolver.compact_operation` (draws no randomness). -/
def compact_operation {σ : Type} (env : PyEnv σ) (trucks : List Truck) (s : σ) :
    Option (List Truck) × σ :=
  if trucks.length ≤ 1 then (none, s)
  else
    let newTrucks := copy_solution trucks
    let mi := argminUtilIdx newTrucks
    let truckToEmpty := newTrucks.getD mi default
    let objectsToPlace := truckToEmpty.placedObjects.map (·.1)
    (compactPlaceAll objectsToPlace (newTrucks.eraseIdx mi), s)

/-! ## The simulated-annealing loop (`local_search`) -/

/-- The operator table `operations = [(shift, 0.35), (swap, 0.20),
(rotate, 0.25), (compact, 0.20)]`. -/
inductive OpTag where
  | shift | swap | rotate | compact
deriving Repr, DecidableEq

/-- The fixed weight table. -/
def opTable : List (OpTag × ℚ) :=
  [(OpTag.shift, 35/100), (OpTag.swap, 20/100),
   (OpTag.rotate, 25/100), (OpTag.compact, 20/100)]

/-- The cumulative-weight scan selecting an operator
(`selected_operation` defaults to `operations[0][0]`). -/
def selectOpLoop (rand : ℚ) : ℚ → List (OpTag × ℚ) → OpTag → OpTag
  | _, [], sel => sel
  | cum, (op, w) :: rest, sel =>
    if rand ≤ cum + w then op else selectOpLoop rand (cum + w) rest sel

/-- Operator selection from one `random.random()` draw. -/
def selectOperation (rand : ℚ) : OpTag :=
  selectOpLoop rand 0 opTable OpTag.shift

/-- Dispatch of the selected operator. -/
def applyOp {σ : Type} (env : PyEnv σ) : OpTag → List Truck → σ → Option (List Truck) × σ
  | OpTag.shift => shift_operation env
  | OpTag.swap => swap_operation env
  | OpTag.rotate => rotate_operation env
  | OpTag.compact => compact_operation env

/-- The float values `delta = new_score - current_score` can take when scores
may be `inf`: finite, `inf`, `-inf`, or `nan`. -/
inductive PyVal where
  | fin (q : ℚ) | pinf | ninf | nan
deriving Repr, DecidableEq

/-- Float subtraction of two possibly-infinite scores. -/
def scoreSub : WithTop ℚ → WithTop ℚ → PyVal
  | some a, some b => .fin (a - b)
  | ⊤, some _ => .pinf
  | some _, ⊤ => .ninf
  | ⊤, ⊤ => .nan

/-- `delta < 0` on floats (`nan < 0` and `inf < 0` are false). -/
def pyIsNeg : PyVal → Bool
  | .fin q => decide (q < 0)
  | .pinf => false
  | .ninf => true
  | .nan => false

/-- `-delta / temp` for `temp > 0`. -/
def pyNegDiv (v : PyVal) (temp : ℚ) : PyVal :=
  match v with
  | .fin q => .fin (-q / temp)
  | .pinf => .ninf
  | .ninf => .pinf
  | .nan => .nan

/-- `math.exp` on the possibly-infinite argument (`exp(-inf) = 0.0`,
`exp(inf) = inf`, `exp(nan) = nan`; finite arguments go to the float model). -/
def pyExp {σ : Type} (env : PyEnv σ) : PyVal → PyVal
  | .fin q => .fin (env.exp q)
  | .pinf => .pinf
  | .ninf => .fin 0
  | .nan => .nan

/-- `u < v` for a finite float `u` (`u < inf` true, `u < nan` false). -/
def pyLtFin (u : ℚ) : PyVal → Bool
  | .fin v => decide (u < v)
  | .pinf => true
  | .ninf => false
  | .nan => false

/-- The acceptance test
`delta < 0 or (temp > 0 and random.random() < math.exp(-delta / temp))`,
drawing the uniform float only when Python's short-circuiting reaches it. -/
def sa_accept {σ : Type} (env : PyEnv σ) (s : σ) (delta : PyVal) (temp : ℚ) :
    Bool × σ :=
  if pyIsNeg delta then (true, s)
  else if 0 < temp then
    let ud := env.randFloat s
    (pyLtFin ud.1 (pyExp env (pyNegDiv delta temp)), ud.2)
  else (false, s)

/-- The mutable locals of `local_search`. -/
structure LSState (σ : Type) where
  current : List Truck
  currentScore : WithTop ℚ
  best : List Truck
  bestScore : WithTop ℚ
  noImp : Nat
  rng : σ

/-- One iteration of the `local_search` loop body (after the two break checks):
select an operator by cumulative weight, apply it, and run the
simulated-annealing acceptance. -/
def localSearchIter {σ : Type} (env : PyEnv σ) (temperature : ℚ)
    (maxIterations iteration : Nat) (st : LSState σ) : LSState σ :=
  let rd := env.randFloat st.rng
  let tag := selectOperation rd.1
  let ap := applyOp env tag st.current rd.2
  match ap.1 with
  | none => { st with noImp := st.noImp + 1, rng := ap.2 }
  | some newSolution =>
    let newScore := calculate_score newSolution
    let delta := scoreSub newScore st.currentScore
    let temp := temperature * (1 - (iteration : ℚ) / (maxIterations : ℚ))
    let ac := sa_accept env ap.2 delta temp
    if ac.1 then
      if newScore < st.bestScore then
        { current := newSolution, currentScore := newScore,
          best := copy_solution newSolution, bestScore := newScore,
          noImp := 0, rng := ac.2 }
      else
        { st with current := newSolution, currentScore := newScore,
                  noImp := st.noImp + 1, rng := ac.2 }
    else { st with noImp := st.noImp + 1, rng := ac.2 }

/-- The `for iteration in range(max_iterations)` loop with its two break
conditions, counting down the remaining iterations. -/
def localSearchLoop {σ : Type} (env : PyEnv σ) (minTrucks : Nat) (temperature : ℚ)
    (maxIterations : Nat) : Nat → Nat → LSState σ → LSState σ
  | 0, _, st => st
  | remaining + 1, iteration, st =>
    if st.best.length ≤ minTrucks then st
    else if maxIterations / 10 ≤ st.noImp then st
    else localSearchLoop env minTrucks temperature maxIterations remaining
      (iteration + 1) (localSearchIter env temperature maxIterations iteration st)

/-- `RandomStartLocalSearchSolver.local_search` (the identical loop appears in
`naive_local.py`): returns the best solution found and the final RNG state. -/
def local_search {σ : Type} (env : PyEnv σ) (s : σ) (initialSolution : List Truck)
    (maxIterations : Nat) (temperature : ℚ) (minTrucks : Nat) : List Truck × σ :=
  let currentSolution := copy_solution initialSolution
  let currentScore := calculate_score currentSolution
  let st : LSState σ :=
    { current := currentSolution, currentScore := currentScore,
      best := copy_solution currentSolution, bestScore := currentScore,
      noImp := 0, rng := s }
  let stF := localSearchLoop env minTrucks temperature maxIterations maxIterations 0 st
  (stF.best, stF.rng)

/-! ## `RandomStartLocalSearchSolver.solve` and output formatting -/

/-- The outcome of `solve`: a truck list (`[]` is the UNSAT sentinel), or an
uncaught exception (`len(None)` when no strategy produced a solution). -/
inductive SolveResult where
  | ok (trucks : List Truck)
  | err
deriving Repr, DecidableEq

/-- The code after the strategies loop: `len(global_best_solution)` raises
`TypeError` when it is still `None`; otherwise
`return global_best_solution if global_best_solution else []`. -/
def finalReturn : Option (List Truck) → SolveResult
  | none => SolveResult.err
  | some b => SolveResult.ok (if b.isEmpty then [] else b)

/-- The `for idx, (name, ordering, seed) in enumerate(strategies)` loop of
`RandomStartLocalSearchSolver.solve`. -/
def strategiesLoop {σ : Type} (env : PyEnv σ) (dims : Dims) (objects : List Obj)
    (lsIterations minTrucks : Nat) :
    List Int → σ → Option (List Truck) → WithTop ℚ → SolveResult
  | [], _, gb, _ => finalReturn gb
  | seed :: rest, s, gb, gbScore =>
    let ini := solve_with_ordering env s dims objects "random" (some seed)
    if ini.1.isEmpty then
      strategiesLoop env dims objects lsIterations minTrucks rest ini.2 gb gbScore
    else
      let s2 := env.seed (seed + 1000)
      let ls := local_search env s2 ini.1 lsIterations 100 minTrucks
      let optimizedScore := calculate_score ls.1
      let gb' := if optimizedScore < gbScore then some ls.1 else gb
      let gbScore' := if optimizedScore < gbScore then optimizedScore else gbScore
      if ls.1.length ≤ minTrucks then finalReturn gb'
      else strategiesLoop env dims objects lsIterations minTrucks rest ls.2 gb' gbScore'

/-- `RandomStartLocalSearchSolver.solve`: satisfiability pre-check, then the
random-start strategies with local search. -/
def rsl_solve {σ : Type} (env : PyEnv σ) (s : σ) (dims : Dims) (objects : List Obj)
    (numStarts lsIterations : Nat) (seedStart : Int) : SolveResult :=
  if !satisfiability_check dims objects then SolveResult.ok []
  else
    let minTrucks := calculate_min_trucks dims objects
    let seeds := (List.range numStarts).map fun i => seedStart + (i : Int)
    strategiesLoop env dims objects lsIterations minTrucks seeds s none ⊤

/-- One output line `"{truck_id} {x} {y} {z} {x1} {y1} {z1}"`. -/
def placementLine (truckId x y z x1 y1 z1 : Nat) : String :=
  toString truckId ++ " " ++ toString x ++ " " ++ toString y ++ " " ++ toString z
    ++ " " ++ toString x1 ++ " " ++ toString y1 ++ " " ++ toString z1

/-- Last-write-wins dictionary lookup (`placements[obj.id] = line`). -/
def dictGet (pairs : List (Nat × String)) (k : Nat) : Option String :=
  ((pairs.filter fun p => p.1 == k).getLast?).map (·.2)

/-- `generate_output`: "SAT" plus one line per object id in input order;
`none` models the `KeyError` raised when some id in `range(len(placements))`
is missing from the dict. -/
def generate_output (trucks : List Truck) : Option String :=
  let pairs := trucks.enum.flatMap fun tp =>
    tp.2.placedObjects.map fun p =>
      (p.1.id, placementLine tp.1 p.2.1 p.2.2.1 p.2.2.2
        (p.2.1 + p.1.length) (p.2.2.1 + p.1.width) (p.2.2.2 + p.1.height))
  let n := (pairs.map Prod.fst).dedup.length
  ((List.range n).mapM (dictGet pairs)).map fun ls =>
    String.intercalate "\n" ("SAT" :: ls)

/-- The result formatting of every `main`:
`generate_output(trucks)` when the truck list is non-empty, else `"UNSAT"`. -/
def formatResult (trucks : List Truck) : Option String :=
  if trucks.isEmpty then some "UNSAT" else generate_output trucks

/-! ## The naive solver (`naive.py`), the only variant with a gravity check -/

/-- `AdHocSolver.check_gravity_support`: supported area is the full footprint
at `z = 0`, else the summed x-y overlap with placements whose top face is at
exactly `z`; at least half the footprint must be supported. -/
def check_gravity_support (x y z l w : Nat) (t : Truck) : Bool :=
  let bottomArea : ℚ := (l : ℚ) * (w : ℚ)
  let requiredSupportArea := bottomArea * (1/2)
  let supportedArea : ℚ :=
    if z = 0 then bottomArea
    else
      (t.placedObjects.map fun q =>
        if q.2.2.2 + q.1.height = z then
          let xaS := max x q.2.1
          let xe := min (x + l) (q.2.1 + q.1.length)
          let ys := max y q.2.2.1
          let ye := min (y + w) (q.2.2.1 + q.1.width)
          if xaS < xe ∧ ys < ye then ((xe - xaS : Nat) : ℚ) * ((ye - ys : Nat) : ℚ)
          else 0
        else 0).sum
  decide (requiredSupportArea ≤ supportedArea)

/-- `AdHocSolver.find_best_position` (`naive.py`): the first scanned position
that is collision-free AND gravity-supported. -/
def adhoc_find_best_position (l w h : Nat) (t : Truck) : Option (Nat × Nat × Nat) :=
  (candidatePositions t.length t.width t.height l w h).find? fun p =>
    !check_collision p.1 p.2.1 p.2.2 l w h t none && check_gravity_support p.1 p.2.1 p.2.2 l w t

/-- Orientation loop of `AdHocSolver.place_object_in_truck`; `naive.py`'s
`Object` has no `original_dims`, the 6 permutations come from the current
dims. -/
def adhocTryOrientations (o : Obj) (t : Truck) : List (Nat × Nat × Nat) → Option Truck
  | [] => none
  | d :: rest =>
    if fitsEnvelope d (t.length, t.width, t.height) then
      match adhoc_find_best_position d.1 d.2.1 d.2.2 t with
      | some p => some (appendPlacement t o d p)
      | none => adhocTryOrientations o t rest
    else adhocTryOrientations o t rest

/-- `AdHocSolver.place_object_in_truck`. -/
def adhoc_place_object_in_truck (o : Obj) (t : Truck) : Option Truck :=
  adhocTryOrientations o t (sixPerms (o.length, o.width, o.height))

/-- `AdHocSolver.satisfiability_check` (orientations from current dims). -/
def adhoc_satisfiability_check (dims : Dims) (objects : List Obj) : Bool :=
  objects.all fun obj => (sixPerms (obj.length, obj.width, obj.height)).any
    fun d => fitsEnvelope d dims

/-- First-fit scan over open trucks for the naive solver. -/
def adhocPlaceInTrucks (o : Obj) : List Truck → Option (List Truck)
  | [] => none
  | t :: rest =>
    match adhoc_place_object_in_truck o t with
    | some t' => some (t' :: rest)
    | none => (adhocPlaceInTrucks o rest).map (t :: ·)

/-- The placement loop of `AdHocSolver.solve`. -/
def adhocGreedyLoop (dims : Dims) : List Obj → List Truck → List Truck
  | [], trucks => trucks
  | o :: rest, trucks =>
    match adhocPlaceInTrucks o trucks with
    | some trucks' => adhocGreedyLoop dims rest trucks'
    | none =>
      match adhoc_place_object_in_truck o (Truck.mk dims.1 dims.2.1 dims.2.2 []) with
      | some t' => adhocGreedyLoop dims rest (trucks ++ [t'])
      | none => []

/-- `AdHocSolver.solve`: satisfiability check, sort by volume descending
(stable), first-fit-decreasing placement. -/
def adhoc_solve (dims : Dims) (objects : List Obj) : List Truck :=
  if !adhoc_satisfiability_check dims objects then []
  else adhocGreedyLoop dims (stableSort volumeDesc objects) []

/-! ## Invariant checkers (the spec's well-formedness conditions, stated
against the source's own geometric predicates) -/

/-- The gravity invariant for one truck: every placement, checked with
`check_gravity_support` against the other placements of the same truck. -/
def gravity_ok (t : Truck) : Bool :=
  (List.range t.placedObjects.length).all fun i =>
    match t.placedObjects[i]? with
    | some p => check_gravity_support p.2.1 p.2.2.1 p.2.2.2 p.1.length p.1.width
        (popPlacement t i)
    | none => true

/-- A placement lies inside its truck's envelope (positions are naturals, so
nonnegativity is structural). -/
def PlacementFits (t : Truck) (p : Placement) : Prop :=
  p.2.1 + p.1.length ≤ t.length ∧ p.2.2.1 + p.1.width ≤ t.width ∧
    p.2.2.2 + p.1.height ≤ t.height

/-- A placement occupies one of the 6 permutations of its object's
`original_dims`. -/
def PlacementOriented (p : Placement) : Prop :=
  (p.1.length, p.1.width, p.1.height) ∈ sixPerms p.1.originalDims

/-- Two placements do not overlap, in the sense of the source's own
`check_collision` pair test. -/
def pairDisjoint (p q : Placement) : Prop :=
  collidePair p.2.1 p.2.2.1 p.2.2.2 p.1.length p.1.width p.1.height q = false

/-- No two placements of the truck collide. -/
def TruckPairwise (t : Truck) : Prop :=
  t.placedObjects.Pairwise pairDisjoint

/-- Every placement of the truck lies inside its envelope. -/
def TruckFitsAll (t : Truck) : Prop :=
  ∀ p ∈ t.placedObjects, PlacementFits t p

/-- Every placement of the truck is a legal orientation of its object. -/
def TruckOriented (t : Truck) : Prop :=
  ∀ p ∈ t.placedObjects, PlacementOriented p

/-- A truck has the envelope the solver was given. -/
def TruckDimsEq (dims : Dims) (t : Truck) : Prop :=
  t.length = dims.1 ∧ t.width = dims.2.1 ∧ t.height = dims.2.2

/-- Well-formedness of one truck of a solution of the random-start
local-search solver. -/
def TruckWF (dims : Dims) (t : Truck) : Prop :=
  TruckDimsEq dims t ∧ TruckFitsAll t ∧ TruckOriented t ∧ TruckPairwise t

/-- Well-formedness of a whole solution. -/
def SolutionWF (dims : Dims) (trucks : List Truck) : Prop :=
  ∀ t ∈ trucks, TruckWF dims t

/-- The weaker invariant maintained by `naive.py` (its `Object` has no
`original_dims`, so no orientation component). -/
def NTruckWF (dims : Dims) (t : Truck) : Prop :=
  TruckDimsEq dims t ∧ TruckFitsAll t ∧ TruckPairwise t

/-- The naive solver's solution invariant. -/
def NSolutionWF (dims : Dims) (trucks : List Truck) : Prop :=
  ∀ t ∈ trucks, NTruckWF dims t

/-- What `random_start_local.py`'s `main` prints on stdout: the formatted
solution on a normal return, nothing on the uncaught exception (the error goes
to stderr). -/
def rsl_main_output : SolveResult → Option String
  | SolveResult.ok trucks => formatResult trucks
  | SolveResult.err => none

/-! ## Concrete test fixtures used by witnesses and counterexamples -/

/-- An input object as the parser builds it (`delivery_order = -1`,
`original_dims` = the given dims). -/
def mkObj (id l w h : Nat) : Obj :=
  { id := id, length := l, width := w, height := h, deliveryOrder := -1,
    originalDims := (l, w, h) }

/-- A concrete instance of the random/math environment: `_randbelow n`
returns `n - 1` (so Fisher–Yates shuffles are the identity), `random()`
returns `0`, `exp` returns `1`. -/
def envU : PyEnv Unit where
  seed := fun _ => ()
  randFloat := fun _ => (0, ())
  randBelow := fun _ n => (n - 1, ())
  exp := fun _ => 1
  randBelow_lt := fun _ n h => by show n - 1 < n; omega

/-- A tall thin item. -/
def oTall : Obj := mkObj 0 1 1 5

/-- A long flat item. -/
def oFlat : Obj := mkObj 1 3 1 1

/-- The truck the random-start greedy pass builds for `[oTall, oFlat]` in a
`(3,1,6)` truck: the flat item floats at `z = 5` on a 1-cell column. -/
def tViol : Truck :=
  { length := 3, width := 1, height := 6,
    placedObjects := [(mkObj 0 1 1 5, 0, 0, 0), (mkObj 1 3 1 1, 0, 0, 5)] }

/-- A local-search state used to exercise one refiner iteration: one truck
`2×1×1` whose single unit cube sits at `x = 1` (so `shift` finds the strictly
earlier position `(0,0,0)`). -/
def stIter : LSState Unit :=
  { current := [{ length := 2, width := 1, height := 1,
                  placedObjects := [(mkObj 0 1 1 1, 1, 0, 0)] }],
    currentScore := some 1050, best := [], bestScore := ⊤, noImp := 0,
    rng := () }

/-- The candidate `shift` produces from `stIter`: the cube moved to the
origin. -/
def candIter : List Truck :=
  [{ length := 2, width := 1, height := 1,
     placedObjects := [(mkObj 0 1 1 1, 0, 0, 0)] }]

/-- A local-search state whose solution is empty, so every operator yields no
move. -/
def stEmpty : LSState Unit :=
  { current := [], currentScore := ⊤, best := [], bestScore := ⊤, noImp := 3,
    rng := () }

/-- The truck the naive solver (with its gravity check) builds for
`[oTall, oFlat]` in a `(3,1,6)` truck: the flat item is rotated to `1×1×3`
and placed on the ground next to the column. -/
def tNaive : Truck :=
  { length := 3, width := 1, height := 6,
    placedObjects := [(mkObj 0 1 1 5, 0, 0, 0),
                      ({ mkObj 1 3 1 1 with length := 1, width := 1, height := 3 },
                       1, 0, 0)] }

/-- The floating placement of `tViol` (used to instantiate witnesses). -/
def pFlat : Placement := (mkObj 1 3 1 1, 0, 0, 5)

/-- A well-formed one-truck solution (for score-comparison witnesses). -/
def solOne : List Truck :=
  [{ length := 2, width := 1, height := 1,
     placedObjects := [(mkObj 0 1 1 1, 0, 0, 0)] }]

/-- A well-formed two-truck solution (for score-comparison witnesses). -/
def solTwo : List Truck :=
  [{ length := 2, width := 1, height := 1,
     placedObjects := [(mkObj 0 2 1 1, 0, 0, 0)] },
   { length := 2, width := 1, height := 1,
     placedObjects := [(mkObj 1 2 1 1, 0, 0, 0)] }]

/-- The combined invariant carried through the naive solver: truck dims,
bounds, no collision, gravity. -/
def AdhocInv (dims : Dims) (t : Truck) : Prop :=
  TruckDimsEq dims t ∧ TruckFitsAll t ∧ TruckPairwise t ∧ gravity_ok t = true

/-- The unit cells a placement occupies, for the volume-counting argument. -/
def cells (p : Placement) : Finset (Nat × Nat × Nat) :=
  Finset.Ico p.2.1 (p.2.1 + p.1.length) ×ˢ
    (Finset.Ico p.2.2.1 (p.2.2.1 + p.1.width) ×ˢ
      Finset.Ico p.2.2.2 (p.2.2.2 + p.1.height))

instance decPlacementFits (t : Truck) (p : Placement) :
    Decidable (PlacementFits t p) := by
  unfold PlacementFits
  infer_instance

instance decPlacementOriented (p : Placement) :
    Decidable (PlacementOriented p) := by
  unfold PlacementOriented
  infer_instance

instance decTruckFitsAll (t : Truck) : Decidable (TruckFitsAll t) := by
  unfold TruckFitsAll
  infer_instance

instance decTruckOriented (t : Truck) : Decidable (TruckOriented t) := by
  unfold TruckOriented
  infer_instance

instance decTruckPairwise (t : Truck) : Decidable (TruckPairwise t) := by
  unfold TruckPairwise pairDisjoint
  infer_instance

instance decTruckDimsEq (dims : Dims) (t : Truck) :
    Decidable (TruckDimsEq dims t) := by
  unfold TruckDimsEq
  infer_instance

instance decTruckWF (dims : Dims) (t : Truck) : Decidable (TruckWF dims t) := by
  unfold TruckWF
  infer_instance

instance decSolutionWF (dims : Dims) (trucks : List Truck) :
    Decidable (SolutionWF dims trucks) := by
  unfold SolutionWF
  infer_instance

/-! # Theorems -/

/-- Python's `(a + b - 1) // b` is the ceiling of the exact division. -/
theorem add_pred_div_eq_ceil (a b : ℕ) (hb : 0 < b) :
    (a + b - 1) / b = ⌈(a : ℚ) / (b : ℚ)⌉₊ := by
  have hbq : (0 : ℚ) < (b : ℚ) := by exact_mod_cast hb
  apply le_antisymm
  · rw [Nat.div_le_iff_le_mul_add_pred hb]
    have h1 : (a : ℚ) / (b : ℚ) ≤ (⌈(a : ℚ) / (b : ℚ)⌉₊ : ℚ) := Nat.le_ceil _
    rw [div_le_iff₀ hbq] at h1
    have h2 : a ≤ b * ⌈(a : ℚ) / (b : ℚ)⌉₊ := by
      rw [Nat.mul_comm]
      exact_mod_cast h1
    omega
  · rw [Nat.ceil_le, div_le_iff₀ hbq]
    have h3 := Nat.div_add_mod (a + b - 1) b
    have h4 := Nat.mod_lt (a + b - 1) hb
    rw [Nat.mul_comm] at h3
    have h5 : a ≤ (a + b - 1) / b * b := by omega
    exact_mod_cast h5

/-- C4: the lower-bound estimator.  The claim's formula is right except for
the empty case: the code applies `max(1, ·)` unconditionally, so an empty item
list yields `1`, not `0`.  This theorem proves the amended claim: for a truck
of positive volume the result is `max 1 ⌈Σ volume / truckVolume⌉`, hence `1`
on the empty list. -/
theorem c4_min_trucks_amended (dims : Dims) (objects : List Obj)
    (h : 0 < dims.1 * dims.2.1 * dims.2.2) :
    calculate_min_trucks dims objects =
      max 1 ⌈((objects.map get_object_volume).sum : ℚ) /
             ((dims.1 * dims.2.1 * dims.2.2 : ℕ) : ℚ)⌉₊ ∧
    calculate_min_trucks dims [] = 1 := by
  constructor
  · simp only [calculate_min_trucks]
    rw [add_pred_div_eq_ceil _ _ h]
  · simp only [calculate_min_trucks, List.map_nil, List.sum_nil, Nat.zero_add]
    have : (dims.1 * dims.2.1 * dims.2.2 - 1) / (dims.1 * dims.2.1 * dims.2.2) = 0 :=
      Nat.div_eq_of_lt (by omega)
    omega

/-- C4 witness: the amended formula evaluated on a concrete instance. -/
theorem c4_min_trucks_amended_witness :
    calculate_min_trucks (3, 1, 6) [oTall, oFlat] =
      max 1 ⌈(([oTall, oFlat].map get_object_volume).sum : ℚ) /
             (((3 * 1 * 6 : ℕ) : ℕ) : ℚ)⌉₊ :=
  (c4_min_trucks_amended (3, 1, 6) [oTall, oFlat] (by norm_num)).1

/-- C4 counterexample: on the empty item list the estimator returns `1`, not
`0` as the claim states. -/
theorem c4_min_trucks_counterexample :
    calculate_min_trucks (10, 10, 10) [] ≠ 0 := by decide

/-- C5: if the pre-check fails (some item fits the envelope in none of its 6
orientations), `solve` returns the UNSAT sentinel `[]` immediately; and the
pre-check fails exactly when such an item exists. -/
theorem c5_satisfiability_precheck (σ : Type) (env : PyEnv σ) (s : σ)
    (dims : Dims) (objects : List Obj) (numStarts lsIterations : Nat)
    (seedStart : Int) :
    (satisfiability_check dims objects = false →
      rsl_solve env s dims objects numStarts lsIterations seedStart =
        SolveResult.ok []) ∧
    (satisfiability_check dims objects = false ↔
      ∃ o ∈ objects, ∀ d ∈ sixPerms o.originalDims,
        ¬(d.1 ≤ dims.1 ∧ d.2.1 ≤ dims.2.1 ∧ d.2.2 ≤ dims.2.2)) := by
  constructor
  · intro h
    simp [rsl_solve, h]
  · rw [← Bool.not_eq_true]
    simp [satisfiability_check, List.all_eq_true, List.any_eq_true,
      fitsEnvelope, not_forall]

/-- C5 witness: a `20×10×10` item fits a `10×10×10` truck in no orientation,
and `solve` returns the sentinel. -/
theorem c5_satisfiability_precheck_witness :
    rsl_solve envU () (10, 10, 10) [mkObj 0 20 10 10] 5 2000 42 =
      SolveResult.ok [] :=
  (c5_satisfiability_precheck Unit envU () (10, 10, 10) [mkObj 0 20 10 10]
    5 2000 42).1 (by decide)

/-- Helper for C3: with no objects every strategy produces the empty truck
list and is skipped, so the loop ends with `global_best_solution = None` and
the final `len(global_best_solution)` raises. -/
theorem strategiesLoop_no_objects (σ : Type) (env : PyEnv σ) (dims : Dims)
    (lsIterations minTrucks : Nat) :
    ∀ (seeds : List Int) (s : σ) (gbScore : WithTop ℚ),
      strategiesLoop env dims [] lsIterations minTrucks seeds s none gbScore =
        SolveResult.err := by
  intro seeds
  induction seeds with
  | nil => intro s g; rfl
  | cons seed rest ih =>
    intro s g
    have hempty : (solve_with_ordering env s dims [] "random" (some seed)).1 = [] := rfl
    simp only [strategiesLoop, hempty, List.isEmpty_nil, if_true]
    exact ih _ _

/-- C3 (amended): for the empty item list the naive solver returns the empty
truck list, which `main` formats as `"UNSAT"` (not `"SAT"`), and
`RandomStartLocalSearchSolver.solve` raises `TypeError` (`len(None)`) instead
of returning. -/
theorem c3_empty_input_amended (σ : Type) (env : PyEnv σ) (s : σ) (dims : Dims)
    (numStarts lsIterations : Nat) (seedStart : Int) :
    adhoc_solve dims [] = [] ∧
    formatResult (adhoc_solve dims []) = some "UNSAT" ∧
    rsl_solve env s dims [] numStarts lsIterations seedStart =
      SolveResult.err ∧
    rsl_main_output (rsl_solve env s dims [] numStarts lsIterations seedStart) =
      none := by
  have h1 : adhoc_solve dims [] = [] := rfl
  have h2 : rsl_solve env s dims [] numStarts lsIterations seedStart =
      SolveResult.err := by
    simp only [rsl_solve, satisfiability_check, List.all_nil, Bool.not_true,
      Bool.false_eq_true, if_false]
    exact strategiesLoop_no_objects σ env dims lsIterations _ _ s ⊤
  refine ⟨h1, by rw [h1]; rfl, h2, by rw [h2]; rfl⟩

/-- C3 witness: the concrete empty instance. -/
theorem c3_empty_input_amended_witness :
    formatResult (adhoc_solve (100, 100, 100) []) = some "UNSAT" ∧
    rsl_solve envU () (100, 100, 100) [] 5 2000 42 = SolveResult.err :=
  ⟨(c3_empty_input_amended Unit envU () (100, 100, 100) 5 2000 42).2.1,
   (c3_empty_input_amended Unit envU () (100, 100, 100) 5 2000 42).2.2.1⟩

/-- C3 counterexample: the claim says the empty item list is formatted as
`"SAT"` with no placement lines; the naive solver's `main` prints `"UNSAT"`. -/
theorem c3_empty_input_counterexample :
    formatResult (adhoc_solve (100, 100, 100) []) = some "UNSAT" ∧
    formatResult (adhoc_solve (100, 100, 100) []) ≠ some "SAT" := by
  constructor
  · decide
  · decide

/-- Seeding makes `solve_with_ordering` independent of the incoming global
RNG state. -/
theorem solve_with_ordering_seed_irrel (σ : Type) (env : PyEnv σ) (s₀ s₁ : σ)
    (dims : Dims) (objects : List Obj) (ordering : String) (n : Int) :
    solve_with_ordering env s₀ dims objects ordering (some n) =
      solve_with_ordering env s₁ dims objects ordering (some n) := rfl

/-- A strategies loop with at least one strategy is independent of the
incoming RNG state (the first strategy re-seeds before any draw). -/
theorem strategiesLoop_state_irrel (σ : Type) (env : PyEnv σ) (dims : Dims)
    (objects : List Obj) (lsIterations minTrucks : Nat) (seed : Int)
    (rest : List Int) (s₀ s₁ : σ) (gb : Option (List Truck))
    (gbScore : WithTop ℚ) :
    strategiesLoop env dims objects lsIterations minTrucks (seed :: rest) s₀
        gb gbScore =
      strategiesLoop env dims objects lsIterations minTrucks (seed :: rest) s₁
        gb gbScore := rfl

/-- C9: determinism.  `solve` re-seeds the global generator (`random.seed`)
before every random operation of every strategy, so its result — and hence
the formatted output — does not depend on the pre-existing generator state:
two calls with the same inputs and configuration agree byte for byte. -/
theorem c9_solve_deterministic (σ : Type) (env : PyEnv σ) (s₀ s₁ : σ)
    (dims : Dims) (objects : List Obj) (numStarts lsIterations : Nat)
    (seedStart : Int) :
    rsl_solve env s₀ dims objects numStarts lsIterations seedStart =
      rsl_solve env s₁ dims objects numStarts lsIterations seedStart ∧
    rsl_main_output
        (rsl_solve env s₀ dims objects numStarts lsIterations seedStart) =
      rsl_main_output
        (rsl_solve env s₁ dims objects numStarts lsIterations seedStart) := by
  have key : rsl_solve env s₀ dims objects numStarts lsIterations seedStart =
      rsl_solve env s₁ dims objects numStarts lsIterations seedStart := by
    cases numStarts with
    | zero => rfl
    | succ n =>
      simp only [rsl_solve]
      by_cases h : satisfiability_check dims objects
      · simp only [h, Bool.not_true, Bool.false_eq_true, if_false,
          List.range_succ_eq_map, List.map_cons]
        exact strategiesLoop_state_irrel σ env dims objects lsIterations _ _ _
          s₀ s₁ none ⊤
      · simp [h]
  exact ⟨key, by rw [key]⟩

/-- The deep copy `copy_solution` rebuilds every truck and object field by
field, producing a value-identical solution. -/
theorem copy_solution_eq (trucks : List Truck) : copy_solution trucks = trucks := by
  unfold copy_solution
  have h : ∀ ps : List Placement,
      (ps.map fun p =>
        (({ id := p.1.id, length := p.1.length, width := p.1.width,
            height := p.1.height, deliveryOrder := p.1.deliveryOrder,
            originalDims := p.1.originalDims } : Obj),
          p.2.1, p.2.2.1, p.2.2.2)) = ps := by
    intro ps
    induction ps with
    | nil => rfl
    | cons p rest ih => simp [ih]
  induction trucks with
  | nil => rfl
  | cons t rest ih => simp [ih, h]

/-- Evaluating the weighted-selection scan on the draw `0` picks `shift`. -/
theorem selectOperation_zero : selectOperation 0 = OpTag.shift := by
  norm_num [selectOperation, selectOpLoop, opTable]

/-- Characterisation of the acceptance test on a finite `delta`. -/
theorem sa_accept_fin (σ : Type) (env : PyEnv σ) (s : σ) (q temp : ℚ) :
    (sa_accept env s (PyVal.fin q) temp).1 = true ↔
      (q < 0 ∨ (0 < temp ∧ (env.randFloat s).1 < env.exp (-q / temp))) := by
  unfold sa_accept pyIsNeg pyNegDiv pyExp pyLtFin
  by_cases h : q < 0
  · simp [h]
  · by_cases ht : 0 < temp
    · simp [h, ht]
    · simp [h, ht]

/-- C6: simulated-annealing acceptance.  In an iteration whose operator
produced a candidate with finite scores, the candidate becomes the current
solution exactly when `delta < 0`, or the temperature
`T = T0 * (1 - iteration/maxIterations)` is positive and the uniform draw `u`
satisfies `u < exp(-delta / T)`; when `T ≤ 0`, a worsening or equal-score
move is never accepted. -/
theorem c6_sa_acceptance (σ : Type) (env : PyEnv σ) (temperature : ℚ)
    (maxIterations iteration : Nat) (st : LSState σ) (cand : List Truck)
    (qn qc : ℚ)
    (happ : (applyOp env (selectOperation (env.randFloat st.rng).1) st.current
        (env.randFloat st.rng).2).1 = some cand)
    (hqc : st.currentScore = some qc)
    (hqn : calculate_score cand = some qn)
    (hne : cand ≠ st.current) :
    ((localSearchIter env temperature maxIterations iteration st).current = cand ↔
      (qn - qc < 0 ∨
        (0 < temperature * (1 - (iteration : ℚ) / (maxIterations : ℚ)) ∧
          (env.randFloat (applyOp env (selectOperation (env.randFloat st.rng).1)
              st.current (env.randFloat st.rng).2).2).1 <
            env.exp (-(qn - qc) /
              (temperature * (1 - (iteration : ℚ) / (maxIterations : ℚ))))))) ∧
    (temperature * (1 - (iteration : ℚ) / (maxIterations : ℚ)) ≤ 0 →
      0 ≤ qn - qc →
      (localSearchIter env temperature maxIterations iteration st).current =
        st.current) := by
  have hchar := sa_accept_fin σ env
    ((applyOp env (selectOperation (env.randFloat st.rng).1) st.current
      (env.randFloat st.rng).2).2) (qn - qc)
    (temperature * (1 - (iteration : ℚ) / (maxIterations : ℚ)))
  simp only [localSearchIter, happ, hqc, hqn, scoreSub]
  rcases hb : (sa_accept env
      ((applyOp env (selectOperation (env.randFloat st.rng).1) st.current
        (env.randFloat st.rng).2).2) (PyVal.fin (qn - qc))
      (temperature * (1 - (iteration : ℚ) / (maxIterations : ℚ)))).1 with _ | _
  · rw [hb] at hchar
    simp only [hb, Bool.false_eq_true, if_false]
    constructor
    · constructor
      · intro h; exact absurd h.symm hne
      · intro h; exact absurd (hchar.mpr h) (by simp)
    · intro _ _
      trivial
  · rw [hb] at hchar
    constructor
    · refine iff_of_true ?_ (hchar.mp rfl)
      simp only [hb]
      split
      · split <;> rfl
      · exact absurd trivial (by assumption)
    · intro hle hge
      rcases hchar.mp rfl with h | ⟨h, _⟩
      · exact absurd hge (not_le.2 h)
      · exact absurd hle (not_le.2 h)

/-- C6 witness: a concrete iteration in which `shift` produces a strictly
different candidate of equal score and the acceptance draw succeeds. -/
theorem c6_sa_acceptance_witness :
    (localSearchIter envU 100 2 0 stIter).current = candIter := by
  have h1 : (applyOp envU (selectOperation ((envU.randFloat stIter.rng).1))
      stIter.current (envU.randFloat stIter.rng).2).1 = some candIter := by
    rw [show (envU.randFloat stIter.rng).1 = 0 from rfl, selectOperation_zero]
    decide
  have h3 : calculate_score candIter = some 1050 := by
    norm_num [calculate_score, candIter, get_utilization, get_capacity,
      get_used_volume, mkObj]
  exact (c6_sa_acceptance Unit envU 100 2 0 stIter candIter 1050 1050 h1 rfl h3
    (by decide)).1.mpr (Or.inr ⟨by norm_num, by norm_num [envU]⟩)

/-- C8: frame property of the refiner loop.  When the selected operator yields
no move, the iteration only bumps the no-improvement counter and the RNG;
when the candidate is rejected by the acceptance test, the current and best
solutions and scores are all exactly as before.  The deep copy the operators
start from is value-identical to the current solution, so rejected mutations
never touch the accepted state. -/
theorem c8_reject_frame (σ : Type) (env : PyEnv σ) (temperature : ℚ)
    (maxIterations iteration : Nat) (st : LSState σ) :
    ((applyOp env (selectOperation (env.randFloat st.rng).1) st.current
        (env.randFloat st.rng).2).1 = none →
      localSearchIter env temperature maxIterations iteration st =
        { st with noImp := st.noImp + 1,
                  rng := (applyOp env (selectOperation (env.randFloat st.rng).1)
                    st.current (env.randFloat st.rng).2).2 }) ∧
    (∀ cand,
      (applyOp env (selectOperation (env.randFloat st.rng).1) st.current
        (env.randFloat st.rng).2).1 = some cand →
      (sa_accept env (applyOp env (selectOperation (env.randFloat st.rng).1)
          st.current (env.randFloat st.rng).2).2
          (scoreSub (calculate_score cand) st.currentScore)
          (temperature * (1 - (iteration : ℚ) / (maxIterations : ℚ)))).1 =
        false →
      (localSearchIter env temperature maxIterations iteration st).current =
          st.current ∧
        (localSearchIter env temperature maxIterations iteration st).currentScore =
          st.currentScore ∧
        (localSearchIter env temperature maxIterations iteration st).best =
          st.best ∧
        (localSearchIter env temperature maxIterations iteration st).bestScore =
          st.bestScore ∧
        (localSearchIter env temperature maxIterations iteration st).noImp =
          st.noImp + 1) ∧
    copy_solution st.current = st.current := by
  refine ⟨?_, ?_, copy_solution_eq st.current⟩
  · intro h
    simp only [localSearchIter, h]
  · intro cand hsome hrej
    simp only [localSearchIter, hsome, hrej, Bool.false_eq_true, if_false]
    simp

/-- C8 witness: on the empty solution every operator yields no move, and the
iteration only bumps the counter. -/
theorem c8_reject_frame_witness :
    localSearchIter envU 100 2 0 stEmpty =
      { stEmpty with noImp := stEmpty.noImp + 1, rng := () } := by
  have h : (applyOp envU (selectOperation ((envU.randFloat stEmpty.rng).1))
      stEmpty.current (envU.randFloat stEmpty.rng).2).1 = none := by
    rw [show (envU.randFloat stEmpty.rng).1 = 0 from rfl, selectOperation_zero]
    decide
  exact (c8_reject_frame Unit envU 100 2 0 stEmpty).1 h

/-- C1 counterexample: the random-start/local-search solver has no gravity
check at all.  On a `3×1×6` truck with items `1×1×5` and `3×1×1`, already the
greedy first-fit pass floats the flat item at `z = 5` on a single supporting
cell (area 1 < 0.5 × 3), and `solve` returns that solution unchanged. -/
theorem c1_gravity_counterexample :
    rsl_solve envU () (3, 1, 6) [oTall, oFlat] 1 2000 42 =
      SolveResult.ok [tViol] ∧
    (solve_with_ordering envU () (3, 1, 6) [oTall, oFlat] "random" (some 42)).1 =
      [tViol] ∧
    gravity_ok tViol = false := by
  refine ⟨by decide, by decide, ?_⟩
  have h1 : check_gravity_support 0 0 5 3 1 (popPlacement tViol 1) = false := by
    norm_num [check_gravity_support, popPlacement, tViol, mkObj]
  have hsplit : gravity_ok tViol =
      (check_gravity_support 0 0 0 1 1 (popPlacement tViol 0) &&
        (check_gravity_support 0 0 5 3 1 (popPlacement tViol 1) && true)) := rfl
  rw [hsplit, h1]
  simp

/-! ## Invariant preservation: geometry of the placement search -/

/-- A scanned coordinate keeps the object inside the axis. -/
theorem mem_scanRange {bound obj z : Nat} (h : z ∈ scanRange bound obj) :
    z + obj ≤ bound := by
  unfold scanRange at h
  split at h
  · next hle => rw [List.mem_range] at h; omega
  · exact absurd h (List.not_mem_nil z)

/-- Every candidate position keeps the box inside the truck. -/
theorem mem_candidatePositions {tl tw th l w h : Nat} {p : Nat × Nat × Nat}
    (hp : p ∈ candidatePositions tl tw th l w h) :
    p.1 + l ≤ tl ∧ p.2.1 + w ≤ tw ∧ p.2.2 + h ≤ th := by
  unfold candidatePositions at hp
  simp only [List.mem_flatMap, List.mem_map] at hp
  obtain ⟨z, hz, x, hx, y, hy, rfl⟩ := hp
  exact ⟨mem_scanRange hx, mem_scanRange hy, mem_scanRange hz⟩

/-- What a successful `find_best_position` guarantees: no collision, and the
box inside the truck. -/
theorem find_best_position_spec {l w h : Nat} {t : Truck} {ex : Option Obj}
    {p : Nat × Nat × Nat} (hf : find_best_position l w h t ex = some p) :
    check_collision p.1 p.2.1 p.2.2 l w h t ex = false ∧
    p.1 + l ≤ t.length ∧ p.2.1 + w ≤ t.width ∧ p.2.2 + h ≤ t.height := by
  have h1 := List.find?_some hf
  have h2 := mem_candidatePositions (List.mem_of_find?_eq_some hf)
  exact ⟨by simpa using h1, h2.1, h2.2.1, h2.2.2⟩

/-- A collision-free candidate against a truck with no exclusion is
collision-free against each placement. -/
theorem check_collision_none_forall {x y z l w h : Nat} {t : Truck}
    (hc : check_collision x y z l w h t none = false) :
    ∀ q ∈ t.placedObjects, collidePair x y z l w h q = false := by
  intro q hq
  unfold check_collision at hc
  cases hcp : collidePair x y z l w h q
  · rfl
  · exfalso
    have : t.placedObjects.any
        (fun q => (match (none : Option Obj) with
          | some e => !(q.1.id == e.id)
          | none => true) && collidePair x y z l w h q) = true :=
      List.any_eq_true.2 ⟨q, hq, by simp [hcp]⟩
    rw [hc] at this
    exact Bool.false_ne_true this

/-- The axis overlap test is symmetric. -/
theorem axisOverlap_comm (x l px pl : Nat) :
    axisOverlap x l px pl = axisOverlap px pl x l := by
  simp [axisOverlap, Bool.or_comm]

/-- A collision-free candidate box, seen from the placed object's side. -/
theorem pairDisjoint_of_collide_false {x y z l w h : Nat} {q : Placement}
    {o : Obj} (ho1 : o.length = l) (ho2 : o.width = w) (ho3 : o.height = h)
    (hc : collidePair x y z l w h q = false) :
    pairDisjoint q (o, x, y, z) := by
  unfold pairDisjoint collidePair
  show (axisOverlap q.2.1 q.1.length x o.length &&
    axisOverlap q.2.2.1 q.1.width y o.width &&
    axisOverlap q.2.2.2 q.1.height z o.height) = false
  rw [ho1, ho2, ho3, axisOverlap_comm q.2.1 q.1.length x l,
    axisOverlap_comm q.2.2.1 q.1.width y w,
    axisOverlap_comm q.2.2.2 q.1.height z h]
  exact hc

/-- Appending an in-bounds placement keeps every placement in bounds. -/
theorem truckFitsAll_append {t : Truck} {o : Obj} {x y z : Nat}
    (hf : TruckFitsAll t)
    (hb : x + o.length ≤ t.length ∧ y + o.width ≤ t.width ∧
      z + o.height ≤ t.height) :
    TruckFitsAll { t with placedObjects := t.placedObjects ++ [(o, x, y, z)] } := by
  intro p hp
  rw [List.mem_append] at hp
  rcases hp with hp | hp
  · exact hf p hp
  · rw [List.mem_singleton] at hp
    subst hp
    exact ⟨hb.1, hb.2.1, hb.2.2⟩

/-- Appending a legally oriented placement keeps all orientations legal. -/
theorem truckOriented_append {t : Truck} {o : Obj} {x y z : Nat}
    (ho : TruckOriented t) (hnew : PlacementOriented (o, x, y, z)) :
    TruckOriented { t with placedObjects := t.placedObjects ++ [(o, x, y, z)] } := by
  intro p hp
  rw [List.mem_append] at hp
  rcases hp with hp | hp
  · exact ho p hp
  · rw [List.mem_singleton] at hp
    subst hp
    exact hnew

/-- Appending a collision-checked placement keeps the truck collision-free. -/
theorem truckPairwise_append {t : Truck} {o : Obj} {x y z : Nat}
    (hp : TruckPairwise t)
    (hcol : check_collision x y z o.length o.width o.height t none = false) :
    TruckPairwise { t with placedObjects := t.placedObjects ++ [(o, x, y, z)] } := by
  unfold TruckPairwise at hp ⊢
  rw [List.pairwise_append]
  refine ⟨hp, List.pairwise_singleton _ _, ?_⟩
  intro a ha b hb
  rw [List.mem_singleton] at hb
  subst hb
  exact pairDisjoint_of_collide_false rfl rfl rfl
    (check_collision_none_forall hcol a ha)

/-- Appending a checked placement preserves the whole truck invariant. -/
theorem truckWF_append_raw {dims : Dims} {t : Truck} {o : Obj} {x y z : Nat}
    (hwf : TruckWF dims t) (hor : PlacementOriented (o, x, y, z))
    (hcol : check_collision x y z o.length o.width o.height t none = false)
    (hb : x + o.length ≤ t.length ∧ y + o.width ≤ t.width ∧
      z + o.height ≤ t.height) :
    TruckWF dims { t with placedObjects := t.placedObjects ++ [(o, x, y, z)] } :=
  ⟨hwf.1, truckFitsAll_append hwf.2.1 hb, truckOriented_append hwf.2.2.1 hor,
   truckPairwise_append hwf.2.2.2 hcol⟩

/-- Removing a placement preserves the truck invariant. -/
theorem truckWF_pop {dims : Dims} {t : Truck} (i : Nat) (hwf : TruckWF dims t) :
    TruckWF dims (popPlacement t i) := by
  refine ⟨hwf.1, ?_, ?_, ?_⟩
  · intro p hp
    exact hwf.2.1 p ((List.eraseIdx_sublist t.placedObjects i).subset hp)
  · intro p hp
    exact hwf.2.2.1 p ((List.eraseIdx_sublist t.placedObjects i).subset hp)
  · exact List.Pairwise.sublist (List.eraseIdx_sublist t.placedObjects i)
      hwf.2.2.2

/-- The orientation loop of `place_object_in_truck` preserves the truck
invariant. -/
theorem tryOrientations_wf {dims : Dims} {o : Obj} {t t' : Truck} :
    ∀ {ds : List (Nat × Nat × Nat)},
      (∀ d ∈ ds, d ∈ sixPerms o.originalDims) → TruckWF dims t →
      tryOrientations o t ds = some t' → TruckWF dims t' := by
  intro ds
  induction ds with
  | nil => intro _ _ h; exact absurd h (by simp [tryOrientations])
  | cons d rest ih =>
    intro hds hwf h
    rw [tryOrientations] at h
    split at h
    · cases hfp : find_best_position d.1 d.2.1 d.2.2 t none with
      | none => rw [hfp] at h; exact ih (fun e he => hds e (List.mem_cons_of_mem d he)) hwf h
      | some p =>
        rw [hfp] at h
        injection h with h
        subst h
        have hspec := find_best_position_spec hfp
        exact truckWF_append_raw hwf
          (show (d.1, d.2.1, d.2.2) ∈ sixPerms o.originalDims from
            hds d (List.mem_cons_self d rest))
          hspec.1 ⟨hspec.2.1, hspec.2.2.1, hspec.2.2.2⟩
    · exact ih (fun e he => hds e (List.mem_cons_of_mem d he)) hwf h

/-- `place_object_in_truck` preserves the truck invariant. -/
theorem place_object_in_truck_wf {dims : Dims} {o : Obj} {t t' : Truck}
    (hwf : TruckWF dims t) (h : place_object_in_truck o t = some t') :
    TruckWF dims t' :=
  tryOrientations_wf (fun _ hd => hd) hwf h

/-! ## Invariant preservation: solutions as truck lists -/

/-- The empty solution is well formed. -/
theorem solutionWF_nil (dims : Dims) : SolutionWF dims [] := by
  intro t ht
  exact absurd ht (List.not_mem_nil t)

/-- Writing a well-formed truck into a well-formed solution. -/
theorem solutionWF_set {dims : Dims} {ts : List Truck} {t' : Truck} (i : Nat)
    (hs : SolutionWF dims ts) (ht : TruckWF dims t') :
    SolutionWF dims (ts.set i t') := by
  intro t htm
  rcases List.mem_or_eq_of_mem_set htm with h | h
  · exact hs t h
  · subst h; exact ht

/-- Removing a truck keeps the solution well formed. -/
theorem solutionWF_eraseIdx {dims : Dims} {ts : List Truck} (i : Nat)
    (hs : SolutionWF dims ts) : SolutionWF dims (ts.eraseIdx i) := by
  intro t htm
  exact hs t ((List.eraseIdx_sublist ts i).subset htm)

/-- An in-range `getD` read is a member of the list. -/
theorem getD_mem_of_lt {α : Type} [Inhabited α] {xs : List α} {i : Nat}
    (h : i < xs.length) : xs.getD i default ∈ xs := by
  rw [List.getD_eq_getElem?_getD, List.getElem?_eq_getElem h]
  exact List.getElem_mem h

/-- Members of `nonEmptyIdx` index into the list and hit non-empty trucks. -/
theorem mem_nonEmptyIdx {ts : List Truck} {i : Nat} (h : i ∈ nonEmptyIdx ts) :
    i < ts.length ∧ (ts.getD i default).placedObjects ≠ [] := by
  unfold nonEmptyIdx at h
  rw [List.mem_filter, List.mem_range] at h
  refine ⟨h.1, ?_⟩
  have h2 := h.2
  simp at h2
  rw [List.getD_eq_getElem?_getD]
  exact h2

/-- First-fit placement into the open trucks preserves well-formedness. -/
theorem placeInTrucks_wf {dims : Dims} {o : Obj} :
    ∀ {ts ts' : List Truck}, SolutionWF dims ts →
      placeInTrucks o ts = some ts' → SolutionWF dims ts' := by
  intro ts
  induction ts with
  | nil => intro ts' _ h; exact absurd h (by simp [placeInTrucks])
  | cons t rest ih =>
    intro ts' hs h
    rw [placeInTrucks] at h
    cases hp : place_object_in_truck o t with
    | some t2 =>
      rw [hp] at h
      injection h with h
      subst h
      intro u hu
      rcases List.mem_cons.1 hu with h | h
      · subst h
        exact place_object_in_truck_wf (hs t (List.mem_cons_self t rest)) hp
      · exact hs u (List.mem_cons_of_mem t h)
    | none =>
      rw [hp] at h
      cases hrec : placeInTrucks o rest with
      | none => rw [hrec] at h; exact absurd h (by simp)
      | some rest' =>
        rw [hrec] at h
        injection h with h
        subst h
        intro u hu
        rcases List.mem_cons.1 hu with h | h
        · subst h; exact hs u (List.mem_cons_self u rest)
        · exact ih (fun v hv => hs v (List.mem_cons_of_mem t hv)) hrec u h

/-- A freshly opened truck is well formed. -/
theorem truckWF_new (dims : Dims) :
    TruckWF dims (Truck.mk dims.1 dims.2.1 dims.2.2 []) := by
  refine ⟨⟨rfl, rfl, rfl⟩, ?_, ?_, List.Pairwise.nil⟩
  · intro p hp; exact absurd hp (List.not_mem_nil p)
  · intro p hp; exact absurd hp (List.not_mem_nil p)

/-- The greedy first-fit loop only produces well-formed solutions. -/
theorem greedyLoop_wf {dims : Dims} :
    ∀ (objs : List Obj) (ts : List Truck), SolutionWF dims ts →
      SolutionWF dims (greedyLoop dims objs ts) := by
  intro objs
  induction objs with
  | nil => intro ts hs; exact hs
  | cons o rest ih =>
    intro ts hs
    rw [greedyLoop]
    cases hp : placeInTrucks o ts with
    | some ts' => exact ih ts' (placeInTrucks_wf hs hp)
    | none =>
      cases hq : place_object_in_truck o (Truck.mk dims.1 dims.2.1 dims.2.2 []) with
      | some t' =>
        refine ih (ts ++ [t']) ?_
        intro u hu
        rcases List.mem_append.1 hu with h | h
        · exact hs u h
        · rw [List.mem_singleton] at h
          subst h
          exact place_object_in_truck_wf (truckWF_new dims) hq
      | none => exact solutionWF_nil dims

/-- Every greedy pass of `solve_with_ordering` yields a well-formed
solution. -/
theorem solve_with_ordering_wf {σ : Type} (env : PyEnv σ) (s : σ) (dims : Dims)
    (objects : List Obj) (ordering : String) (seed : Option Int) :
    SolutionWF dims (solve_with_ordering env s dims objects ordering seed).1 := by
  unfold solve_with_ordering
  split_ifs <;> exact greedyLoop_wf _ _ (solutionWF_nil dims)

/-! ## Invariant preservation: the local-search operators -/

/-- In-range `getD` with an explicit default is a member. -/
theorem getD_mem_of_lt' {α : Type} {xs : List α} {i : Nat} (d : α)
    (h : i < xs.length) : xs.getD i d ∈ xs := by
  rw [List.getD_eq_getElem?_getD, List.getElem?_eq_getElem h]
  exact List.getElem_mem h

/-- Swapping two positions introduces no new elements. -/
theorem mem_listSwap {α : Type} {xs : List α} {i j : Nat} {a : α}
    (h : a ∈ listSwap xs i j) : a ∈ xs := by
  unfold listSwap at h
  cases hi : xs[i]? with
  | none => rw [hi] at h; exact h
  | some b =>
    cases hj : xs[j]? with
    | none => rw [hi, hj] at h; exact h
    | some c =>
      rw [hi, hj] at h
      rcases List.mem_or_eq_of_mem_set h with h2 | h2
      · rcases List.mem_or_eq_of_mem_set h2 with h3 | h3
        · exact h3
        · subst h3; exact List.getElem?_mem hj
      · subst h2; exact List.getElem?_mem hi

/-- A Fisher–Yates shuffle introduces no new elements. -/
theorem mem_shuffleFrom {σ α : Type} (env : PyEnv σ) :
    ∀ (i : Nat) (xs : List α) (s : σ) {a : α},
      a ∈ (shuffleFrom env i xs s).1 → a ∈ xs := by
  intro i
  induction i with
  | zero => intro xs s a h; exact h
  | succ n ih =>
    intro xs s a h
    rw [shuffleFrom] at h
    exact mem_listSwap (ih _ _ h)

/-- `pyShuffle` introduces no new elements. -/
theorem mem_pyShuffle {σ α : Type} {env : PyEnv σ} {xs : List α} {s : σ}
    {a : α} (h : a ∈ (pyShuffle env xs s).1) : a ∈ xs :=
  mem_shuffleFrom env _ xs s h

/-- The cross-truck scan of `shift_operation` preserves well-formedness. -/
theorem shiftTryOthers_wf {dims : Dims} {o : Obj} {ti : Nat} :
    ∀ {ks : List Nat} {nt ts' : List Truck}, SolutionWF dims nt →
      shiftTryOthers o nt ti ks = some ts' → SolutionWF dims ts' := by
  intro ks
  induction ks with
  | nil => intro nt ts' _ h; exact absurd h (by simp [shiftTryOthers])
  | cons k rest ih =>
    intro nt ts' hs h
    rw [shiftTryOthers] at h
    split at h
    · exact ih hs h
    · cases hp : place_object_in_truck o (nt.getD k default) with
      | none => rw [hp] at h; exact ih hs h
      | some t' =>
        rw [hp] at h
        injection h with h
        subst h
        by_cases hk : k < nt.length
        · exact solutionWF_set k hs
            (place_object_in_truck_wf (hs _ (getD_mem_of_lt' default hk)) hp)
        · rw [List.set_eq_of_length_le (Nat.le_of_not_lt hk)]
          exact hs

/-- `shift_operation` preserves well-formedness. -/
theorem shift_operation_wf {σ : Type} {env : PyEnv σ} {dims : Dims}
    {trucks ts' : List Truck} {s : σ}
    (hs : SolutionWF dims trucks)
    (h : (shift_operation env trucks s).1 = some ts') :
    SolutionWF dims ts' := by
  rw [shift_operation, copy_solution_eq] at h
  dsimp only at h
  split at h
  · exact absurd h (by simp)
  · split at h
    · exact absurd h (by simp)
    · next hne =>
      split at h
      · exact absurd h (by simp)
      · next hpl =>
        have hne2 : nonEmptyIdx trucks ≠ [] := by
          simpa [List.isEmpty_iff] using hne
        have hnel : 0 < (nonEmptyIdx trucks).length := List.length_pos.2 hne2
        have hji := env.randBelow_lt s (nonEmptyIdx trucks).length hnel
        have hti := mem_nonEmptyIdx (getD_mem_of_lt' 0 hji)
        have htw : TruckWF dims
            (trucks.getD ((nonEmptyIdx trucks).getD
              (env.randBelow s (nonEmptyIdx trucks).length).1 0) default) :=
          hs _ (getD_mem_of_lt' default hti.1)
        have hplen : 0 < (trucks.getD ((nonEmptyIdx trucks).getD
            (env.randBelow s (nonEmptyIdx trucks).length).1 0)
              default).placedObjects.length := List.length_pos.2 hti.2
        have hoi := env.randBelow_lt
          (env.randBelow s (nonEmptyIdx trucks).length).2 _ hplen
        have hpm := getD_mem_of_lt' (default : Placement) hoi
        have hpo : PlacementOriented ((trucks.getD ((nonEmptyIdx trucks).getD
            (env.randBelow s (nonEmptyIdx trucks).length).1 0)
              default).placedObjects.getD
            (env.randBelow (env.randBelow s (nonEmptyIdx trucks).length).2
              (trucks.getD ((nonEmptyIdx trucks).getD
                (env.randBelow s (nonEmptyIdx trucks).length).1 0)
                  default).placedObjects.length).1 default) :=
          htw.2.2.1 _ hpm
        have hpopwf := truckWF_pop
          (env.randBelow (env.randBelow s (nonEmptyIdx trucks).length).2
            (trucks.getD ((nonEmptyIdx trucks).getD
              (env.randBelow s (nonEmptyIdx trucks).length).1 0)
                default).placedObjects.length).1 htw
        split at h
        · next pos hfp =>
          injection h with h
          subst h
          refine solutionWF_set _ hs ?_
          have hspec := find_best_position_spec hfp
          exact truckWF_append_raw hpopwf hpo hspec.1
            ⟨hspec.2.1, hspec.2.2.1, hspec.2.2.2⟩
        · split at h
          · next nt2 hothers =>
            injection h with h
            subst h
            have hnt1 : SolutionWF dims (trucks.set ((nonEmptyIdx trucks).getD
                (env.randBelow s (nonEmptyIdx trucks).length).1 0) _) :=
              solutionWF_set _ hs hpopwf
            have hnt2 := shiftTryOthers_wf hnt1 hothers
            split
            · exact solutionWF_eraseIdx _ hnt2
            · exact hnt2
          · exact absurd h (by simp)

/-- `swap_operation` preserves well-formedness. -/
theorem swap_operation_wf {σ : Type} {env : PyEnv σ} {dims : Dims}
    {trucks ts' : List Truck} {s : σ}
    (hs : SolutionWF dims trucks)
    (h : (swap_operation env trucks s).1 = some ts') :
    SolutionWF dims ts' := by
  rw [swap_operation, copy_solution_eq] at h
  dsimp only at h
  split at h
  · exact absurd h (by simp)
  · split at h
    · exact absurd h (by simp)
    · next hlen =>
      have hnel : 0 < (nonEmptyIdx trucks).length := by omega
      have hj1 := env.randBelow_lt s (nonEmptyIdx trucks).length hnel
      have hi1 := mem_nonEmptyIdx (getD_mem_of_lt' 0 hj1)
      have hrl : 0 < ((nonEmptyIdx trucks).eraseIdx
          (env.randBelow s (nonEmptyIdx trucks).length).1).length := by
        rw [List.length_eraseIdx]
        simp only [hj1, if_true]
        omega
      have hj2 := env.randBelow_lt
        (env.randBelow s (nonEmptyIdx trucks).length).2 _ hrl
      have hi2m : ((nonEmptyIdx trucks).eraseIdx
          (env.randBelow s (nonEmptyIdx trucks).length).1).getD
            (env.randBelow (env.randBelow s (nonEmptyIdx trucks).length).2
              ((nonEmptyIdx trucks).eraseIdx
                (env.randBelow s (nonEmptyIdx trucks).length).1).length).1 0 ∈
          nonEmptyIdx trucks :=
        (List.eraseIdx_sublist (nonEmptyIdx trucks)
          (env.randBelow s (nonEmptyIdx trucks).length).1).subset
          (getD_mem_of_lt' 0 hj2)
      have hi2 := mem_nonEmptyIdx hi2m
      have ht1w := hs _ (getD_mem_of_lt' (default : Truck) hi1.1)
      have ht2w := hs _ (getD_mem_of_lt' (default : Truck) hi2.1)
      split at h
      · exact absurd h (by simp)
      · next t1f hp1 =>
        split at h
        · exact absurd h (by simp)
        · next t2f hp2 =>
          injection h with h
          subst h
          refine solutionWF_set _ (solutionWF_set _ hs ?_) ?_
          · exact place_object_in_truck_wf (truckWF_pop _ ht1w) hp1
          · exact place_object_in_truck_wf (truckWF_pop _ ht2w) hp2

/-- The orientation loop of `rotate_operation` preserves the truck
invariant. -/
theorem tryRotOrientations_wf {dims : Dims} {o : Obj} {t t' : Truck} :
    ∀ {ds : List (Nat × Nat × Nat)},
      (∀ d ∈ ds, d ∈ sixPerms o.originalDims) → TruckWF dims t →
      tryRotOrientations o t ds = some t' → TruckWF dims t' := by
  intro ds
  induction ds with
  | nil => intro _ _ h; exact absurd h (by simp [tryRotOrientations])
  | cons d rest ih =>
    intro hds hwf h
    rw [tryRotOrientations] at h
    cases hfp : find_best_position d.1 d.2.1 d.2.2 t none with
    | none =>
      rw [hfp] at h
      exact ih (fun e he => hds e (List.mem_cons_of_mem d he)) hwf h
    | some p =>
      rw [hfp] at h
      injection h with h
      subst h
      have hspec := find_best_position_spec hfp
      exact truckWF_append_raw hwf
        (show (d.1, d.2.1, d.2.2) ∈ sixPerms o.originalDims from
          hds d (List.mem_cons_self d rest))
        hspec.1 ⟨hspec.2.1, hspec.2.2.1, hspec.2.2.2⟩

/-- `rotate_operation` preserves well-formedness. -/
theorem rotate_operation_wf {σ : Type} {env : PyEnv σ} {dims : Dims}
    {trucks ts' : List Truck} {s : σ}
    (hs : SolutionWF dims trucks)
    (h : (rotate_operation env trucks s).1 = some ts') :
    SolutionWF dims ts' := by
  rw [rotate_operation, copy_solution_eq] at h
  dsimp only at h
  split at h
  · exact absurd h (by simp)
  · split at h
    · exact absurd h (by simp)
    · next hne =>
      split at h
      · exact absurd h (by simp)
      · next hpl =>
        have hne2 : nonEmptyIdx trucks ≠ [] := by
          simpa [List.isEmpty_iff] using hne
        have hnel : 0 < (nonEmptyIdx trucks).length := List.length_pos.2 hne2
        have hji := env.randBelow_lt s (nonEmptyIdx trucks).length hnel
        have hti := mem_nonEmptyIdx (getD_mem_of_lt' 0 hji)
        have htw := hs _ (getD_mem_of_lt' (default : Truck) hti.1)
        have hoi := env.randBelow_lt
          (env.randBelow s (nonEmptyIdx trucks).length).2 _
          (List.length_pos.2 hti.2)
        have hpm := getD_mem_of_lt' (default : Placement) hoi
        have hpopwf := truckWF_pop
          (env.randBelow (env.randBelow s (nonEmptyIdx trucks).length).2
            (trucks.getD ((nonEmptyIdx trucks).getD
              (env.randBelow s (nonEmptyIdx trucks).length).1 0)
                default).placedObjects.length).1 htw
        split at h
        · exact absurd h (by simp)
        · split at h
          · next truck2 hrot =>
            injection h with h
            subst h
            refine solutionWF_set _ hs ?_
            refine tryRotOrientations_wf ?_ hpopwf hrot
            intro d hd
            have hd2 := mem_pyShuffle hd
            exact (List.mem_filter.1 hd2).1
          · exact absurd h (by simp)

/-- Redistribution in `compact_operation` preserves well-formedness. -/
theorem compactPlaceAll_wf {dims : Dims} :
    ∀ {os : List Obj} {ts ts' : List Truck}, SolutionWF dims ts →
      compactPlaceAll os ts = some ts' → SolutionWF dims ts' := by
  intro os
  induction os with
  | nil =>
    intro ts ts' hs h
    rw [compactPlaceAll] at h
    injection h with h
    subst h
    exact hs
  | cons o rest ih =>
    intro ts ts' hs h
    rw [compactPlaceAll] at h
    cases hp : placeInTrucks o ts with
    | none => rw [hp] at h; exact absurd h (by simp)
    | some ts2 =>
      rw [hp] at h
      exact ih (placeInTrucks_wf hs hp) h

/-- `compact_operation` preserves well-formedness. -/
theorem compact_operation_wf {σ : Type} {env : PyEnv σ} {dims : Dims}
    {trucks ts' : List Truck} {s : σ}
    (hs : SolutionWF dims trucks)
    (h : (compact_operation env trucks s).1 = some ts') :
    SolutionWF dims ts' := by
  rw [compact_operation, copy_solution_eq] at h
  dsimp only at h
  split at h
  · exact absurd h (by simp)
  · exact compactPlaceAll_wf (solutionWF_eraseIdx _ hs) h

/-- Every operator of the refiner preserves well-formedness. -/
theorem applyOp_wf {σ : Type} {env : PyEnv σ} {dims : Dims} {tag : OpTag}
    {trucks ts' : List Truck} {s : σ}
    (hs : SolutionWF dims trucks)
    (h : (applyOp env tag trucks s).1 = some ts') :
    SolutionWF dims ts' := by
  cases tag with
  | shift =>
    exact shift_operation_wf hs
      (show (shift_operation env trucks s).1 = some ts' from h)
  | swap =>
    exact swap_operation_wf hs
      (show (swap_operation env trucks s).1 = some ts' from h)
  | rotate =>
    exact rotate_operation_wf hs
      (show (rotate_operation env trucks s).1 = some ts' from h)
  | compact =>
    exact compact_operation_wf hs
      (show (compact_operation env trucks s).1 = some ts' from h)

/-- One refiner iteration preserves well-formedness of the current and best
solutions. -/
theorem localSearchIter_wf {σ : Type} (env : PyEnv σ) {dims : Dims}
    (temperature : ℚ) (maxIterations iteration : Nat) {st : LSState σ}
    (hc : SolutionWF dims st.current) (hb : SolutionWF dims st.best) :
    SolutionWF dims (localSearchIter env temperature maxIterations iteration st).current ∧
    SolutionWF dims (localSearchIter env temperature maxIterations iteration st).best := by
  rw [localSearchIter]
  dsimp only
  split
  · exact ⟨hc, hb⟩
  · next newSolution happ =>
    have hnew : SolutionWF dims newSolution := applyOp_wf hc happ
    split
    · split
      · rw [copy_solution_eq]
        exact ⟨hnew, hnew⟩
      · exact ⟨hnew, hb⟩
    · exact ⟨hc, hb⟩

/-- The refiner loop preserves well-formedness of the best solution. -/
theorem localSearchLoop_wf {σ : Type} {env : PyEnv σ} {dims : Dims}
    {minTrucks : Nat} {temperature : ℚ} {maxIterations : Nat} :
    ∀ (remaining iteration : Nat) (st : LSState σ),
      SolutionWF dims st.current → SolutionWF dims st.best →
      SolutionWF dims (localSearchLoop env minTrucks temperature maxIterations
        remaining iteration st).best := by
  intro remaining
  induction remaining with
  | zero => intro _ st _ hb; exact hb
  | succ n ih =>
    intro iteration st hc hb
    rw [localSearchLoop]
    split
    · exact hb
    · split
      · exact hb
      · have := localSearchIter_wf env temperature maxIterations iteration hc hb
        exact ih _ _ this.1 this.2

/-- `local_search` returns a well-formed solution when given one. -/
theorem local_search_wf {σ : Type} {env : PyEnv σ} {dims : Dims} {s : σ}
    {initialSolution : List Truck} {maxIterations : Nat} {temperature : ℚ}
    {minTrucks : Nat} (hs : SolutionWF dims initialSolution) :
    SolutionWF dims (local_search env s initialSolution maxIterations
      temperature minTrucks).1 := by
  rw [local_search]
  dsimp only
  rw [copy_solution_eq, copy_solution_eq]
  exact localSearchLoop_wf _ _ _ hs hs

/-- The strategies loop only returns well-formed solutions. -/
theorem strategiesLoop_wf {σ : Type} {env : PyEnv σ} {dims : Dims}
    {objects : List Obj} {lsIterations minTrucks : Nat} :
    ∀ {seeds : List Int} {s : σ} {gb : Option (List Truck)}
      {gbScore : WithTop ℚ} {trucks : List Truck},
      (∀ b, gb = some b → SolutionWF dims b) →
      strategiesLoop env dims objects lsIterations minTrucks seeds s gb
        gbScore = SolveResult.ok trucks →
      SolutionWF dims trucks := by
  intro seeds
  induction seeds with
  | nil =>
    intro s gb gbScore trucks hgb h
    rw [strategiesLoop] at h
    cases gb with
    | none => exact absurd h (by simp [finalReturn])
    | some b =>
      simp only [finalReturn] at h
      injection h with h
      subst h
      split
      · exact solutionWF_nil dims
      · exact hgb b rfl
  | cons seed rest ih =>
    intro s gb gbScore trucks hgb h
    rw [strategiesLoop] at h
    dsimp only at h
    split at h
    · exact ih hgb h
    · have hini : SolutionWF dims
          (solve_with_ordering env s dims objects "random" (some seed)).1 :=
        solve_with_ordering_wf env s dims objects "random" (some seed)
      have hls : SolutionWF dims
          (local_search env (env.seed (seed + 1000))
            (solve_with_ordering env s dims objects "random" (some seed)).1
            lsIterations 100 minTrucks).1 :=
        local_search_wf hini
      have hgb' : ∀ b,
          (if calculate_score (local_search env (env.seed (seed + 1000))
                (solve_with_ordering env s dims objects "random" (some seed)).1
                lsIterations 100 minTrucks).1 < gbScore then
            some (local_search env (env.seed (seed + 1000))
              (solve_with_ordering env s dims objects "random" (some seed)).1
              lsIterations 100 minTrucks).1
          else gb) = some b → SolutionWF dims b := by
        intro b hbeq
        split at hbeq
        · injection hbeq with hbeq
          subst hbeq
          exact hls
        · exact hgb b hbeq
      split at h
      · cases hq : (if calculate_score (local_search env (env.seed (seed + 1000))
              (solve_with_ordering env s dims objects "random" (some seed)).1
              lsIterations 100 minTrucks).1 < gbScore then
            some (local_search env (env.seed (seed + 1000))
              (solve_with_ordering env s dims objects "random" (some seed)).1
              lsIterations 100 minTrucks).1
          else gb) with
        | none => rw [hq] at h; exact absurd h (by simp [finalReturn])
        | some b =>
          rw [hq] at h
          simp only [finalReturn] at h
          injection h with h
          subst h
          split
          · exact solutionWF_nil dims
          · exact hgb' b hq
      · exact ih hgb' h

/-- `RandomStartLocalSearchSolver.solve` only returns well-formed
solutions. -/
theorem rsl_solve_wf {σ : Type} {env : PyEnv σ} {s : σ} {dims : Dims}
    {objects : List Obj} {numStarts lsIterations : Nat} {seedStart : Int}
    {trucks : List Truck}
    (h : rsl_solve env s dims objects numStarts lsIterations seedStart =
      SolveResult.ok trucks) :
    SolutionWF dims trucks := by
  rw [rsl_solve] at h
  dsimp only at h
  split at h
  · injection h with h
    subst h
    exact solutionWF_nil dims
  · exact strategiesLoop_wf (fun b hb => absurd hb (by simp)) h

/-! ## Invariant preservation: the naive solver and its gravity check -/

/-- What a successful `AdHocSolver.find_best_position` guarantees: no
collision, gravity support, and the box inside the truck. -/
theorem adhoc_find_best_position_spec {l w h : Nat} {t : Truck}
    {p : Nat × Nat × Nat} (hf : adhoc_find_best_position l w h t = some p) :
    check_collision p.1 p.2.1 p.2.2 l w h t none = false ∧
    check_gravity_support p.1 p.2.1 p.2.2 l w t = true ∧
    p.1 + l ≤ t.length ∧ p.2.1 + w ≤ t.width ∧ p.2.2 + h ≤ t.height := by
  have h1 := List.find?_some hf
  have h2 := mem_candidatePositions (List.mem_of_find?_eq_some hf)
  rw [Bool.and_eq_true] at h1
  exact ⟨by simpa using h1.1, h1.2, h2.1, h2.2.1, h2.2.2⟩

/-- Index-free characterisation of the gravity checker. -/
theorem gravity_ok_iff (t : Truck) : gravity_ok t = true ↔
    ∀ (i : Nat) (p : Placement), t.placedObjects[i]? = some p →
      check_gravity_support p.2.1 p.2.2.1 p.2.2.2 p.1.length p.1.width
        (popPlacement t i) = true := by
  unfold gravity_ok
  rw [List.all_eq_true]
  constructor
  · intro H i p hp
    have hi : i < t.placedObjects.length := by
      by_contra hni
      rw [List.getElem?_eq_none (Nat.le_of_not_lt hni)] at hp
      exact absurd hp (by simp)
    have h2 := H i (List.mem_range.2 hi)
    rw [hp] at h2
    exact h2
  · intro H i _
    cases hp : t.placedObjects[i]? with
    | none => simp
    | some p => exact H i p hp

/-- Support never shrinks when placements are added: the supported area is a
sum of nonnegative contributions. -/
theorem check_gravity_support_mono (x y z l w : Nat) (t : Truck)
    (more : List Placement)
    (h : check_gravity_support x y z l w t = true) :
    check_gravity_support x y z l w
      { t with placedObjects := t.placedObjects ++ more } = true := by
  unfold check_gravity_support at h ⊢
  rw [decide_eq_true_eq] at h ⊢
  by_cases hz : z = 0
  · simpa [hz] using h
  · simp only [hz, if_false] at h ⊢
    rw [List.map_append, List.sum_append]
    refine le_trans h (le_add_of_nonneg_right (List.sum_nonneg ?_))
    intro a ha
    rw [List.mem_map] at ha
    obtain ⟨q, _, rfl⟩ := ha
    split
    · split
      · positivity
      · exact le_refl 0
    · exact le_refl 0

/-- Appending a supported placement to a gravity-sound truck keeps it
gravity-sound. -/
theorem gravity_ok_append {t : Truck} {o : Obj} {x y z : Nat}
    (hg : gravity_ok t = true)
    (hnew : check_gravity_support x y z o.length o.width t = true) :
    gravity_ok { t with placedObjects := t.placedObjects ++ [(o, x, y, z)] } =
      true := by
  rw [gravity_ok_iff] at hg ⊢
  intro i p hp
  rcases Nat.lt_trichotomy i t.placedObjects.length with hi | hi | hi
  · have hpi : t.placedObjects[i]? = some p := by
      rw [List.getElem?_append, if_pos hi] at hp
      exact hp
    have hpop : popPlacement
        { t with placedObjects := t.placedObjects ++ [(o, x, y, z)] } i =
        { (popPlacement t i) with placedObjects :=
            (popPlacement t i).placedObjects ++ [(o, x, y, z)] } := by
      simp [popPlacement, List.eraseIdx_append_of_lt_length hi]
    rw [hpop]
    exact check_gravity_support_mono _ _ _ _ _ _ _ (hg i p hpi)
  · have hpe : p = (o, x, y, z) := by
      rw [List.getElem?_append_right (le_of_eq hi.symm)] at hp
      rw [← hi] at hp
      simp at hp
      exact hp.symm
    subst hpe
    have hpop : popPlacement
        { t with placedObjects := t.placedObjects ++ [(o, x, y, z)] } i = t := by
      simp [popPlacement, List.eraseIdx_append_of_length_le (le_of_eq hi.symm),
        ← hi]
    rw [hpop]
    exact hnew
  · have hge : (t.placedObjects ++ [(o, x, y, z)]).length ≤ i := by
      simp only [List.length_append, List.length_singleton]
      omega
    rw [List.getElem?_eq_none hge] at hp
    exact absurd hp (by simp)

/-- The naive orientation loop preserves the invariant. -/
theorem adhocTryOrientations_inv {dims : Dims} {o : Obj} {t t' : Truck} :
    ∀ {ds : List (Nat × Nat × Nat)}, AdhocInv dims t →
      adhocTryOrientations o t ds = some t' → AdhocInv dims t' := by
  intro ds
  induction ds with
  | nil => intro _ h; exact absurd h (by simp [adhocTryOrientations])
  | cons d rest ih =>
    intro hinv h
    rw [adhocTryOrientations] at h
    split at h
    · cases hfp : adhoc_find_best_position d.1 d.2.1 d.2.2 t with
      | none => rw [hfp] at h; exact ih hinv h
      | some p =>
        rw [hfp] at h
        injection h with h
        subst h
        have hspec := adhoc_find_best_position_spec hfp
        exact ⟨hinv.1,
          truckFitsAll_append hinv.2.1
            ⟨hspec.2.2.1, hspec.2.2.2.1, hspec.2.2.2.2⟩,
          truckPairwise_append hinv.2.2.1 hspec.1,
          gravity_ok_append hinv.2.2.2 hspec.2.1⟩
    · exact ih hinv h

/-- `AdHocSolver.place_object_in_truck` preserves the invariant. -/
theorem adhoc_place_inv {dims : Dims} {o : Obj} {t t' : Truck}
    (hinv : AdhocInv dims t) (h : adhoc_place_object_in_truck o t = some t') :
    AdhocInv dims t' :=
  adhocTryOrientations_inv hinv h

/-- First-fit placement in the naive solver preserves the invariant. -/
theorem adhocPlaceInTrucks_inv {dims : Dims} {o : Obj} :
    ∀ {ts ts' : List Truck}, (∀ t ∈ ts, AdhocInv dims t) →
      adhocPlaceInTrucks o ts = some ts' → ∀ t ∈ ts', AdhocInv dims t := by
  intro ts
  induction ts with
  | nil => intro ts' _ h; exact absurd h (by simp [adhocPlaceInTrucks])
  | cons t rest ih =>
    intro ts' hs h
    rw [adhocPlaceInTrucks] at h
    cases hp : adhoc_place_object_in_truck o t with
    | some t2 =>
      rw [hp] at h
      injection h with h
      subst h
      intro u hu
      rcases List.mem_cons.1 hu with h2 | h2
      · subst h2
        exact adhoc_place_inv (hs t (List.mem_cons_self t rest)) hp
      · exact hs u (List.mem_cons_of_mem t h2)
    | none =>
      rw [hp] at h
      cases hrec : adhocPlaceInTrucks o rest with
      | none => rw [hrec] at h; exact absurd h (by simp)
      | some rest' =>
        rw [hrec] at h
        injection h with h
        subst h
        intro u hu
        rcases List.mem_cons.1 hu with h2 | h2
        · subst h2; exact hs u (List.mem_cons_self u rest)
        · exact ih (fun v hv => hs v (List.mem_cons_of_mem t hv)) hrec u h2

/-- A fresh truck satisfies the naive invariant. -/
theorem adhocInv_new (dims : Dims) :
    AdhocInv dims (Truck.mk dims.1 dims.2.1 dims.2.2 []) := by
  refine ⟨⟨rfl, rfl, rfl⟩, ?_, List.Pairwise.nil, rfl⟩
  intro p hp
  exact absurd hp (List.not_mem_nil p)

/-- The naive greedy loop preserves the invariant. -/
theorem adhocGreedyLoop_inv {dims : Dims} :
    ∀ (objs : List Obj) (ts : List Truck), (∀ t ∈ ts, AdhocInv dims t) →
      ∀ t ∈ adhocGreedyLoop dims objs ts, AdhocInv dims t := by
  intro objs
  induction objs with
  | nil => intro ts hs; exact hs
  | cons o rest ih =>
    intro ts hs
    rw [adhocGreedyLoop]
    cases hp : adhocPlaceInTrucks o ts with
    | some ts' => exact ih ts' (adhocPlaceInTrucks_inv hs hp)
    | none =>
      cases hq : adhoc_place_object_in_truck o
          (Truck.mk dims.1 dims.2.1 dims.2.2 []) with
      | some t' =>
        refine ih (ts ++ [t']) ?_
        intro u hu
        rcases List.mem_append.1 hu with h2 | h2
        · exact hs u h2
        · rw [List.mem_singleton] at h2
          subst h2
          exact adhoc_place_inv (adhocInv_new dims) hq
      | none => intro t ht; exact absurd ht (List.not_mem_nil t)

/-- Every truck returned by the naive solver satisfies the combined
invariant. -/
theorem adhoc_solve_inv (dims : Dims) (objects : List Obj) :
    ∀ t ∈ adhoc_solve dims objects, AdhocInv dims t := by
  rw [adhoc_solve]
  split
  · intro t ht; exact absurd ht (List.not_mem_nil t)
  · exact adhocGreedyLoop_inv _ [] (fun t ht => absurd ht (List.not_mem_nil t))

/-- C1 (amended): the gravity invariant holds for every solution of the naive
solver (`naive.py`), whose `find_best_position` accepts a position only when
`check_gravity_support` passes; support is monotone under later placements, so
it persists.  The random-start/local-search solver performs no support check,
and its solutions can violate the invariant (see the counterexample). -/
theorem c1_gravity_amended (dims : Dims) (objects : List Obj) :
    (adhoc_solve dims objects).all gravity_ok = true := by
  rw [List.all_eq_true]
  intro t ht
  exact (adhoc_solve_inv dims objects t ht).2.2.2

/-- C2: no-overlap.  Solutions of the random-start/local-search solver and of
the naive solver never contain two colliding placements, and the source's
pair test is exactly the half-open-interval overlap on all three axes
(touching faces do not collide). -/
theorem c2_no_overlap (σ : Type) (env : PyEnv σ) (s : σ) (dims : Dims)
    (objects : List Obj) (numStarts lsIterations : Nat) (seedStart : Int)
    (trucks : List Truck)
    (hok : rsl_solve env s dims objects numStarts lsIterations seedStart =
      SolveResult.ok trucks) :
    (∀ t ∈ trucks, t.placedObjects.Pairwise pairDisjoint) ∧
    (∀ t ∈ adhoc_solve dims objects, t.placedObjects.Pairwise pairDisjoint) ∧
    (∀ p q : Placement, pairDisjoint p q ↔
      ¬((q.2.1 < p.2.1 + p.1.length ∧ p.2.1 < q.2.1 + q.1.length) ∧
        (q.2.2.1 < p.2.2.1 + p.1.width ∧ p.2.2.1 < q.2.2.1 + q.1.width) ∧
        (q.2.2.2 < p.2.2.2 + p.1.height ∧ p.2.2.2 < q.2.2.2 + q.1.height))) := by
  refine ⟨fun t ht => (rsl_solve_wf hok t ht).2.2.2,
    fun t ht => (adhoc_solve_inv dims objects t ht).2.2.1, ?_⟩
  intro p q
  unfold pairDisjoint collidePair axisOverlap
  simp only [Bool.and_eq_false_iff, Bool.not_eq_false', Bool.or_eq_true,
    decide_eq_true_eq]
  omega

/-- C2 witness: the concrete `solve` run and its returned truck. -/
theorem c2_no_overlap_witness :
    tViol.placedObjects.Pairwise pairDisjoint :=
  (c2_no_overlap Unit envU () (3, 1, 6) [oTall, oFlat] 1 2000 42 [tViol]
    (by decide)).1 tViol (by decide)

/-- C10: orientation validity.  Every placement of every solution returned by
the random-start/local-search solver occupies one of the 6 permutations of its
object's `original_dims` — preserved through rotate/shift/swap re-placement
and solution copying — and lies inside its truck, whose envelope is the
configured one (positions are naturals, hence nonnegative). -/
theorem c10_orientation_validity (σ : Type) (env : PyEnv σ) (s : σ)
    (dims : Dims) (objects : List Obj) (numStarts lsIterations : Nat)
    (seedStart : Int) (trucks : List Truck)
    (hok : rsl_solve env s dims objects numStarts lsIterations seedStart =
      SolveResult.ok trucks) :
    ∀ t ∈ trucks,
      (t.length = dims.1 ∧ t.width = dims.2.1 ∧ t.height = dims.2.2) ∧
      ∀ p ∈ t.placedObjects,
        (p.1.length, p.1.width, p.1.height) ∈ sixPerms p.1.originalDims ∧
        p.2.1 + p.1.length ≤ t.length ∧ p.2.2.1 + p.1.width ≤ t.width ∧
        p.2.2.2 + p.1.height ≤ t.height := by
  intro t ht
  have h := rsl_solve_wf hok t ht
  exact ⟨h.1, fun p hp =>
    ⟨h.2.2.1 p hp, (h.2.1 p hp).1, (h.2.1 p hp).2.1, (h.2.1 p hp).2.2⟩⟩

/-- C10 witness: the concrete `solve` run, instantiated at the placement of
the flat item. -/
theorem c10_orientation_validity_witness :
    (pFlat.1.length, pFlat.1.width, pFlat.1.height) ∈
      sixPerms pFlat.1.originalDims ∧
    pFlat.2.1 + pFlat.1.length ≤ tViol.length ∧
    pFlat.2.2.1 + pFlat.1.width ≤ tViol.width ∧
    pFlat.2.2.2 + pFlat.1.height ≤ tViol.height :=
  (c10_orientation_validity Unit envU () (3, 1, 6) [oTall, oFlat] 1 2000 42
    [tViol] (by decide) tViol (by decide)).2 pFlat (by decide)

/-! ## C7: scoring, via a cell-counting bound on utilisation -/

/-- A placement's cell set has exactly its volume many cells. -/
theorem card_cells (p : Placement) :
    (cells p).card = p.1.length * p.1.width * p.1.height := by
  simp [cells, Finset.card_product, Nat.card_Ico, mul_assoc]

/-- Cells of an in-bounds placement lie in the truck's cell grid. -/
theorem cells_subset {t : Truck} {p : Placement} (hfits : PlacementFits t p) :
    cells p ⊆ Finset.Ico 0 t.length ×ˢ
      (Finset.Ico 0 t.width ×ˢ Finset.Ico 0 t.height) := by
  intro a ha
  unfold PlacementFits at hfits
  simp only [cells, Finset.mem_product, Finset.mem_Ico] at ha ⊢
  omega

/-- Non-colliding placements occupy disjoint cell sets. -/
theorem cells_disjoint {p q : Placement} (h : pairDisjoint p q) :
    Disjoint (cells p) (cells q) := by
  rw [Finset.disjoint_left]
  intro a hap haq
  unfold pairDisjoint collidePair axisOverlap at h
  simp only [Bool.and_eq_false_iff, Bool.not_eq_false', Bool.or_eq_true,
    decide_eq_true_eq] at h
  simp only [cells, Finset.mem_product, Finset.mem_Ico] at hap haq
  omega

/-- Pairwise-disjoint cell sets inside a grid cannot exceed its size. -/
theorem sum_card_cells_le :
    ∀ {ps : List Placement} {U : Finset (Nat × Nat × Nat)},
      ps.Pairwise pairDisjoint → (∀ p ∈ ps, cells p ⊆ U) →
      (ps.map fun p => (cells p).card).sum ≤ U.card := by
  intro ps
  induction ps with
  | nil => intro U _ _; simp
  | cons p rest ih =>
    intro U hpw hsub
    rw [List.map_cons, List.sum_cons]
    have h1 : cells p ⊆ U := hsub p (List.mem_cons_self p rest)
    have h2 : ∀ q ∈ rest, cells q ⊆ U \ cells p := by
      intro q hq a haq
      rw [Finset.mem_sdiff]
      refine ⟨hsub q (List.mem_cons_of_mem p hq) haq, fun hap => ?_⟩
      exact (Finset.disjoint_left.1
        (cells_disjoint ((List.pairwise_cons.1 hpw).1 q hq))) hap haq
    have h3 := ih (List.pairwise_cons.1 hpw).2 h2
    have h4 : (U \ cells p).card = U.card - (cells p).card :=
      Finset.card_sdiff h1
    have h5 : (cells p).card ≤ U.card := Finset.card_le_card h1
    omega

/-- For a collision-free in-bounds truck, the used volume cannot exceed the
capacity. -/
theorem used_volume_le_capacity {t : Truck} (hfits : TruckFitsAll t)
    (hpw : TruckPairwise t) : get_used_volume t ≤ get_capacity t := by
  have hsum := sum_card_cells_le (U := Finset.Ico 0 t.length ×ˢ
      (Finset.Ico 0 t.width ×ˢ Finset.Ico 0 t.height)) hpw
    (fun p hp => cells_subset (hfits p hp))
  have hmap : (t.placedObjects.map fun p => (cells p).card) =
      t.placedObjects.map fun p => p.1.length * p.1.width * p.1.height :=
    List.map_congr_left fun p _ => card_cells p
  rw [hmap] at hsum
  have hcard : (Finset.Ico 0 t.length ×ˢ
      (Finset.Ico 0 t.width ×ˢ Finset.Ico 0 t.height)).card =
      t.length * t.width * t.height := by
    simp [Finset.card_product, Nat.card_Ico, mul_assoc]
  rw [hcard] at hsum
  exact hsum

/-- Utilisation is nonnegative. -/
theorem get_utilization_nonneg (t : Truck) : 0 ≤ get_utilization t := by
  unfold get_utilization
  split
  · positivity
  · exact le_refl 0

/-- A collision-free in-bounds truck is at most 100% utilised. -/
theorem get_utilization_le_100 {t : Truck} (hfits : TruckFitsAll t)
    (hpw : TruckPairwise t) : get_utilization t ≤ 100 := by
  unfold get_utilization
  split
  · next hcap =>
    have hle := used_volume_le_capacity hfits hpw
    have hcapq : (0 : ℚ) < (get_capacity t : ℚ) := by exact_mod_cast hcap
    have hdiv : (get_used_volume t : ℚ) / (get_capacity t : ℚ) ≤ 1 := by
      rw [div_le_one hcapq]
      exact_mod_cast hle
    nlinarith
  · norm_num

/-- C7: the score function.  The empty (UNSAT) solution scores `+∞`; a
non-empty solution scores `trucks*1000 + (100 − arithmetic mean of per-truck
utilisation percentages)`; consequently, among well-formed solutions
(collision-free, in-bounds — which bounds every utilisation by 100%), any
solution with strictly fewer trucks scores strictly lower. -/
theorem c7_score_function :
    calculate_score [] = ⊤ ∧
    (∀ trucks : List Truck, trucks ≠ [] →
      calculate_score trucks = some ((trucks.length : ℚ) * 1000 +
        (100 - (trucks.map get_utilization).sum / (trucks.length : ℚ)))) ∧
    (∀ t1 t2 : List Truck,
      (∀ t ∈ t1, TruckFitsAll t ∧ TruckPairwise t) →
      (∀ t ∈ t2, TruckFitsAll t ∧ TruckPairwise t) →
      t1 ≠ [] → t1.length < t2.length →
      calculate_score t1 < calculate_score t2) := by
  refine ⟨rfl, ?_, ?_⟩
  · intro trucks hne
    rw [calculate_score]
    simp [List.isEmpty_iff, hne]
  · intro t1 t2 hwf1 hwf2 hne1 hlen
    have hne2 : t2 ≠ [] := by
      intro h
      subst h
      simp at hlen
    have hl1 : 0 < t1.length := List.length_pos.2 hne1
    have hl2 : 0 < t2.length := List.length_pos.2 hne2
    rw [calculate_score, calculate_score]
    simp only [List.isEmpty_iff, hne1, hne2, if_false]
    rw [WithTop.some_lt_some]
    have havg1 : 0 ≤ (t1.map get_utilization).sum / (t1.length : ℚ) := by
      apply div_nonneg
      · apply List.sum_nonneg
        intro a ha
        rw [List.mem_map] at ha
        obtain ⟨t, _, rfl⟩ := ha
        exact get_utilization_nonneg t
      · positivity
    have havg2 : (t2.map get_utilization).sum / (t2.length : ℚ) ≤ 100 := by
      have hsum : (t2.map get_utilization).sum ≤ (t2.length : ℚ) * 100 := by
        have h1 : (t2.map get_utilization).sum ≤
            ((t2.map get_utilization).length : ℚ) * 100 := by
          apply List.sum_le_card_nsmul (t2.map get_utilization) 100 ?_ |>.trans
          · simp [nsmul_eq_mul]
          · intro x hx
            rw [List.mem_map] at hx
            obtain ⟨t, ht, rfl⟩ := hx
            exact get_utilization_le_100 (hwf2 t ht).1 (hwf2 t ht).2
        simpa using h1
      have hl2q : (0 : ℚ) < (t2.length : ℚ) := by exact_mod_cast hl2
      rw [div_le_iff₀ hl2q]
      linarith
    have hcast : (t1.length : ℚ) + 1 ≤ (t2.length : ℚ) := by
      exact_mod_cast hlen
    nlinarith

/-- C7 witness: a one-truck solution beats a two-truck solution even though
the two-truck one is fully utilised. -/
theorem c7_score_function_witness :
    calculate_score solOne < calculate_score solTwo :=
  c7_score_function.2.2 solOne solTwo (by decide) (by decide) (by decide)
    (by decide)

end RPC








